import Mathlib

/-!
Verification of the yo-rote vehicle-routing core against its specification.

The Python sources are shallowly embedded:

* `optimizer.py` / `optimizer_2gis.py` — polyline geo codec, problem builders
  (time windows, jobs, waypoints) and the 2GIS polling loop.  Python floats
  carrying coordinates are modelled as rationals (`ℚ`), Python's `round`
  (round-half-to-even) as `pyRound`, strings of encoded polylines as lists of
  character codes (`List Nat`), and raised exceptions as `Option`/`none`.
* `app.py` / `bot.py` — the ORM state is modelled as a `DB` record of lists of
  rows; each HTTP handler or bot handler becomes a function from `DB` to `DB`
  (plus its response data), with `Option` for the NotFound/BadRequest early
  returns.  The external VRP solver is an oracle parameter.
-/

namespace YoRote

/-! ### Geo codec (`optimizer_2gis._encode_number`, `_encode_coords_to_polyline`,
    `optimizer.decode_polyline`) -/

/-- The inner emission loop of `_encode_number` with fuel: repeatedly emit
`(0x20 | (num & 0x1f)) + 63` while `num >= 0x20`, then emit `num + 63`.
Each step divides by 32, so fuel `n` always suffices. -/
def encodeUVarintGo : Nat → Nat → List Nat
  | 0, n => [n + 63]
  | fuel+1, n =>
    if n ≥ 0x20 then ((0x20 ||| (n % 0x20)) + 63) :: encodeUVarintGo fuel (n / 0x20)
    else [n + 63]

/-- The emission loop of `_encode_number`, fuelled with its argument. -/
def encodeUVarint (n : Nat) : List Nat := encodeUVarintGo n n

/-- `optimizer_2gis._encode_number`.  Python computes `num = ~num << 1`
for negatives — by Python precedence this is `(~num) << 1 = (-num - 1) * 2`,
and `num << 1` otherwise — then runs the emission loop. -/
def _encode_number (num : Int) : List Nat :=
  encodeUVarint (if num < 0 then ((-num - 1) * 2).toNat else (num * 2).toNat)

/-- The loop body of `_encode_coords_to_polyline`: delta-encode the scaled
integer coordinates, threading the previous scaled point. -/
def encodeDeltas : Int → Int → List (Int × Int) → List Nat
  | _, _, [] => []
  | plat, plng, (lat, lng) :: rest =>
      _encode_number (lat - plat) ++ _encode_number (lng - plng) ++
        encodeDeltas lat lng rest

/-- Python's built-in `round` (round half to even) on rationals. -/
def pyRound (q : ℚ) : Int :=
  let f : Int := ⌊q⌋
  let r : ℚ := q - f
  if r < 1/2 then f
  else if (1 : ℚ)/2 < r then f + 1
  else if f % 2 = 0 then f else f + 1

/-- `optimizer_2gis._encode_coords_to_polyline`.  Returns `None` for an empty
coordinate list (`if not coords: return None`), otherwise scales each
coordinate by `1e5`, rounds, and delta-encodes from `(0, 0)`. -/
def _encode_coords_to_polyline (coords : List (ℚ × ℚ)) : Option (List Nat) :=
  if coords.isEmpty then none
  else some (encodeDeltas 0 0
    (coords.map (fun p => (pyRound (p.1 * 100000), pyRound (p.2 * 100000)))))

/-- The inner chunk loop of `optimizer.decode_polyline`:
`b = ord(c) - 63; result |= (b & 0x1f) << shift; shift += 5` until `b < 0x20`.
Running off the end of the string (an `IndexError` in Python) is `none`. -/
def decodeChunk : List Nat → Nat → Nat → Option (Nat × List Nat)
  | [], _, _ => none
  | c :: rest, shift, acc =>
    let b : Int := (c : Int) - 63
    let acc2 : Nat := acc ||| ((b.emod 32).toNat <<< shift)
    if b < 0x20 then some (acc2, rest) else decodeChunk rest (shift + 5) acc2

/-- The zig-zag step of `decode_polyline`:
`~(result >> 1) if (result & 1) else (result >> 1)` (Python `~x = -x - 1`). -/
def decodeSigned (r : Nat) : Int :=
  if r % 2 = 1 then -((r / 2 : Nat) : Int) - 1 else ((r / 2 : Nat) : Int)

/-- The outer `while index < len(encoded)` loop of `decode_polyline`, with fuel.
Each iteration consumes at least one character, so fuel `encoded.length` makes
this exactly the Python loop. -/
def decodeGo : Nat → List Nat → Int → Int → Option (List (Int × Int))
  | _, [], _, _ => some []
  | 0, _ :: _, _, _ => none
  | fuel+1, l, lat, lng =>
    match decodeChunk l 0 0 with
    | none => none
    | some (r1, rest1) =>
      match decodeChunk rest1 0 0 with
      | none => none
      | some (r2, rest2) =>
        let lat2 := lat + decodeSigned r1
        let lng2 := lng + decodeSigned r2
        match decodeGo fuel rest2 lat2 lng2 with
        | none => none
        | some cs => some ((lat2, lng2) :: cs)

/-- `optimizer.decode_polyline`: decode the character codes and rescale each
accumulated integer pair by `1e5`. -/
def decode_polyline (encoded : List Nat) : Option (List (ℚ × ℚ)) :=
  (decodeGo encoded.length encoded 0 0).map
    (List.map (fun p => ((p.1 : ℚ) / 100000, (p.2 : ℚ) / 100000)))

/-! ### ORM rows (`models.py`), restricted to the columns the routing core
reads or writes.  Python `None` becomes `none`; a float column is `Option ℚ`. -/

/-- A row of `models.Order` (a stop). -/
structure Order where
  id : Nat
  status : String
  routeId : Option Nat
  routePosition : Option Nat
  visitDate : String
  pointId : Option Nat
  userId : Option Nat
  lat : Option ℚ
  lon : Option ℚ
  timeAtPoint : Option Int
  kind : Option String
  requiredCourierId : Option Nat
  timeWindowStart : Option String
  timeWindowEnd : Option String
deriving DecidableEq, Repr

/-- A row of `models.Route`. -/
structure Route where
  id : Nat
  courierId : Nat
  date : String
  status : String
  geometry : Option (List Nat)
  userId : Option Nat
deriving DecidableEq, Repr

/-- A row of `models.Courier` (a vehicle). -/
structure Courier where
  id : Nat
  userId : Option Nat
  vehicleType : Option String
  capacity : Option Int
deriving DecidableEq, Repr

/-- A row of `models.Point` (a depot). -/
structure Point where
  id : Nat
  isPrimary : Bool
  latitude : Option ℚ
  longitude : Option ℚ
  userId : Option Nat
deriving DecidableEq, Repr

/-- The database: one list per table, plus the autoincrement counter for
`routes.id`. -/
structure DB where
  orders : List Order
  routes : List Route
  couriers : List Courier
  points : List Point
  nextRouteId : Nat
deriving DecidableEq, Repr

/-- Python truthiness of a nullable float column (`None` and `0.0` are falsy). -/
def qTruthy : Option ℚ → Bool
  | none => false
  | some x => x ≠ 0

/-- Python truthiness of a nullable string column (`None` and `''` are falsy). -/
def strTruthy : Option String → Bool
  | none => false
  | some s => s ≠ ""

/-- `Model.query.get(id)` for orders. -/
def findOrder (db : DB) (oid : Nat) : Option Order :=
  db.orders.find? (fun o => o.id = oid)

/-- `Model.query.get(id)` for routes. -/
def findRoute (db : DB) (rid : Nat) : Option Route :=
  db.routes.find? (fun r => r.id = rid)

/-- `Model.query.get(id)` for points. -/
def findPoint (db : DB) (pid : Nat) : Option Point :=
  db.points.find? (fun p => p.id = pid)

/-- The status of route `rid`, if the route exists. -/
def routeStatus? (db : DB) (rid : Nat) : Option String :=
  (findRoute db rid).map (fun r => r.status)

/-- `Order.query.filter_by(route_id=rid).all()`: the stops linked to a route. -/
def linkedOrders (db : DB) (rid : Nat) : List Order :=
  db.orders.filter (fun o => o.routeId = some rid)

/-- `o.status in ['completed', 'failed']`. -/
def isTerminal (o : Order) : Bool :=
  o.status = "completed" || o.status = "failed"

/-- Row updater: overwrite the status of the order row with id `oid`. -/
def markOrderRow (oid : Nat) (st : String) (o : Order) : Order :=
  if o.id = oid then { o with status := st } else o

/-- Row updater: set the status of the route row with id `rid` to `st`. -/
def setRouteStatusRow (rid : Nat) (st : String) (r : Route) : Route :=
  if r.id = rid then { r with status := st } else r

/-- Row updater: set the courier of the route row with id `rid`. -/
def setRouteCourierRow (rid : Nat) (cid : Nat) (r : Route) : Route :=
  if r.id = rid then { r with courierId := cid } else r

/-- Overwrite the status of order `oid` (`order.status = st; commit`). -/
def setOrderStatus (db : DB) (oid : Nat) (st : String) : DB :=
  { db with orders := db.orders.map (markOrderRow oid st) }

/-! ### Lifecycle state machine (`bot.py`, `app.py`) -/

/-- `bot.check_and_complete_route`: if the route exists, is active, has at
least one linked order and all linked orders are terminal, mark it completed
and report `true`; otherwise leave the database unchanged and report `false`. -/
def check_and_complete_route (db : DB) (rid : Nat) : DB × Bool :=
  match findRoute db rid with
  | none => (db, false)
  | some route =>
    if route.status ≠ "active" then (db, false)
    else
      let orders := linkedOrders db rid
      if orders.isEmpty then (db, false)
      else if orders.all isTerminal then
        ({ db with routes := db.routes.map (setRouteStatusRow rid "completed") }, true)
      else (db, false)

/-- The database effect of `bot.process_photo_proof` once a photo arrives for
order `oid`: set the order's status to `completed`, then re-check the owning
route (`check_and_complete_route`) when the order has one.  The boolean is
whether the route auto-completed (the handler's "route finished" message). -/
def process_photo_proof (db : DB) (oid : Nat) : DB × Bool :=
  match findOrder db oid with
  | none => (db, false)
  | some o =>
    let db1 := setOrderStatus db oid "completed"
    match o.routeId with
    | some rid => check_and_complete_route db1 rid
    | none => (db1, false)

/-- The database effect of `bot.process_failure_reason` for order `oid`:
set the order's status to `failed`, then re-check the owning route. -/
def process_failure_reason (db : DB) (oid : Nat) : DB × Bool :=
  match findOrder db oid with
  | none => (db, false)
  | some o =>
    let db1 := setOrderStatus db oid "failed"
    match o.routeId with
    | some rid => check_and_complete_route db1 rid
    | none => (db1, false)

/-- The `'status' in data` branch of `PUT /api/orders/<id>` (`api_order`):
overwrite the order's status and commit; no route re-evaluation happens.
`none` is the 404 for an unknown order. -/
def api_order_put_status (db : DB) (oid : Nat) (st : String) : Option DB :=
  match findOrder db oid with
  | none => none
  | some _ => some (setOrderStatus db oid st)

/-- `PUT /api/routes/<id>` (`api_route`): overwrite status and/or courier of
the route when the keys are present in the request body. -/
def api_route_put (db : DB) (rid : Nat) (newStatus : Option String)
    (newCourierId : Option Nat) : Option DB :=
  match findRoute db rid with
  | none => none
  | some _ =>
    let db1 :=
      match newStatus with
      | some st => { db with routes := db.routes.map (setRouteStatusRow rid st) }
      | none => db
    let db2 :=
      match newCourierId with
      | some cid => { db1 with routes := db1.routes.map (setRouteCourierRow rid cid) }
      | none => db1
    some db2

/-- Row updater of route deletion: clear only the route linkage of a stop
linked to route `rid` (status and position stay). -/
def unlinkRouteRow (rid : Nat) (o : Order) : Order :=
  if o.routeId = some rid then { o with routeId := none } else o

/-- Row updater of manual reordering: fully unlink a stop of route `rid`,
clearing its position too. -/
def unlinkAndClearRow (rid : Nat) (o : Order) : Order :=
  if o.routeId = some rid then { o with routeId := none, routePosition := none } else o

/-- Row updater of manual reordering: link the order with id `oid` to route
`rid` at position `pos`. -/
def linkAtRow (rid : Nat) (pos : Nat) (oid : Nat) (o : Order) : Order :=
  if o.id = oid then { o with routeId := some rid, routePosition := some pos } else o

/-- Row updater of planning: link the order with id `oid` to the new route
`rid` and (re)set its status to planned; the position is left untouched. -/
def planAssignRow (rid : Nat) (oid : Nat) (o : Order) : Order :=
  if o.id = oid then { o with routeId := some rid, status := "planned" } else o

/-- `DELETE /api/routes/<id>` (`api_route`): `for order in route.orders:
order.route_id = None`, then delete the route row.  Status and
`route_position` of the stops are not touched. -/
def api_route_delete (db : DB) (rid : Nat) : Option DB :=
  match findRoute db rid with
  | none => none
  | some _ =>
    some { db with
      orders := db.orders.map (unlinkRouteRow rid),
      routes := db.routes.filter (fun r => r.id ≠ rid) }

/-- The linking loop of `api_route_edit`:
`for position, order_id in enumerate(new_order_ids): ...` — each resolvable
identifier is linked to the route at its index. -/
def linkOrdersAt (orders : List Order) (rid : Nat) : List (Nat × Nat) → List Order
  | [] => orders
  | (pos, oid) :: rest =>
    linkOrdersAt (orders.map (linkAtRow rid pos oid)) rid rest

/-- `POST /api/routes/<id>/edit` (`api_route_edit`): 404 for an unknown route,
400 for an empty order list (both `none` here); otherwise unlink every stop of
the route (clearing position), then link the supplied identifiers in order. -/
def api_route_edit (db : DB) (rid : Nat) (newOrderIds : List Nat) : Option DB :=
  match findRoute db rid with
  | none => none
  | some _ =>
    if newOrderIds.isEmpty then none
    else
      let unlinked := db.orders.map (unlinkAndClearRow rid)
      some { db with orders := linkOrdersAt unlinked rid newOrderIds.enum }

/-! ### Depot partitioner (`POST /api/routes/optimize`, `api_routes_optimize`) -/

/-- One entry of the list returned by `optimizer.solve_vrp`
(`courier_id`, `order_ids`, `geometry`; the summary is not read back). -/
structure Assignment where
  courierId : Nat
  orderIds : List Nat
  geometry : Option (List Nat)
deriving DecidableEq, Repr

/-- The per-group failure reasons appended to `errors` (the Russian f-strings,
represented structurally). -/
inductive PlanError where
  | noDepot (numOrders : Nat)
  | noCouriers (pointKey : Option Nat) (numOrders : Nat)
  | vrpException (pointKey : Option Nat)
  | solveFailed (numOrders : Nat)
deriving DecidableEq, Repr

/-- The JSON response of `api_routes_optimize`: the two early 400s, the
aggregated 400 when nothing was planned, or success with warnings. -/
inductive OptResult where
  | errNoCouriers
  | errNoOrders
  | errAllFailed (errors : List PlanError)
  | ok (createdIds : List Nat) (warnings : List PlanError)
deriving DecidableEq, Repr

/-- The external VRP backend (`optimizer.solve_vrp`) as an oracle: it receives
the group's orders, the available couriers and the depot coordinate, and
returns a list of assignments; `none` models a raised exception. -/
def Solver : Type :=
  List Order → List Courier → (ℚ × ℚ) → Option (List Assignment)

/-- `if user_id: query.filter_by(user_id=user_id)` — scope rows to the
current user when one is set. -/
def scopedBy (uid : Option Nat) (rowUid : Option Nat) : Bool :=
  match uid with
  | some u => rowUid = some u
  | none => true

/-- The primary point of the scope, falling back to the first point
(`Point.query.filter_by(is_primary=True).first()` or `.first()`). -/
def defaultPointFor (db : DB) (uid : Option Nat) : Option Point :=
  let pts := db.points.filter (fun p => scopedBy uid p.userId)
  match pts.find? (fun p => p.isPrimary) with
  | some p => some p
  | none => pts.head?

/-- The grouping key of one order: its `point_id` when that is truthy and the
point exists with truthy coordinates, otherwise the `'default'` group
(`none`). -/
def pointKeyOf (db : DB) (o : Order) : Option Nat :=
  match o.pointId with
  | none => none
  | some pid =>
    if pid = 0 then none
    else
      match findPoint db pid with
      | some p => if qTruthy p.latitude && qTruthy p.longitude then some pid else none
      | none => none

/-- The keys of `orders_by_point` in dict insertion order (first occurrence
per key). -/
def groupKeysOf (db : DB) (orders : List Order) : List (Option Nat) :=
  orders.foldl
    (fun ks o => let k := pointKeyOf db o; if k ∈ ks then ks else ks ++ [k]) []

/-- The loop state of the optimization endpoint: the database, the created
route ids, the per-group errors and the used-courier set. -/
structure PlanAcc where
  db : DB
  createdIds : List Nat
  errors : List PlanError
  usedCourierIds : List Nat
deriving Repr

/-- The inner loop `for order_id in route_info['order_ids']`: link a returned
order to the new route and (re)set its status to planned.  `route_position`
is not assigned here, mirroring the source. -/
def assignOrders (orders : List Order) (rid : Nat) : List Nat → List Order
  | [] => orders
  | oid :: rest =>
    assignOrders (orders.map (planAssignRow rid oid)) rid rest

/-- The loop `for route_info in routes_data`: mark the courier used, create an
active route with the returned geometry, and link the returned orders. -/
def processAssignments (date : String) (uid : Option Nat) (acc : PlanAcc) :
    List Assignment → PlanAcc
  | [] => acc
  | a :: rest =>
    let rid := acc.db.nextRouteId
    let newRoute : Route :=
      { id := rid, courierId := a.courierId, date := date, status := "active",
        geometry := a.geometry, userId := uid }
    let db1 : DB :=
      { acc.db with
        routes := acc.db.routes ++ [newRoute],
        orders := assignOrders acc.db.orders rid a.orderIds,
        nextRouteId := rid + 1 }
    processAssignments date uid
      { db := db1,
        createdIds := acc.createdIds ++ [rid],
        errors := acc.errors,
        usedCourierIds := acc.usedCourierIds ++ [a.courierId] }
      rest

/-- Depot resolution of one group: for the `'default'` key, the default point
when it has truthy coordinates (`if not default_point or not
default_point.latitude or not default_point.longitude: error`); for a point
key, the re-fetched point's coordinates (by construction of the key it exists
with truthy coordinates — the source re-fetches it without checks). -/
def groupDepot (db : DB) (dflt : Option Point) : Option Nat → Option (ℚ × ℚ)
  | none =>
    match dflt with
    | some p =>
      if qTruthy p.latitude && qTruthy p.longitude then
        match p.latitude, p.longitude with
        | some la, some lo => some (la, lo)
        | _, _ => none
      else none
    | none => none
  | some pid =>
    match findPoint db pid with
    | some p =>
      match p.latitude, p.longitude with
      | some la, some lo => some (la, lo)
      | _, _ => none
    | none => none

/-- One iteration of `for point_key, group_orders in orders_by_point.items()`:
resolve the depot, filter out used couriers, run the solver, and either record
a per-group error or materialize the returned routes. -/
def processGroup (solver : Solver) (couriers : List Courier) (dflt : Option Point)
    (date : String) (uid : Option Nat) (acc : PlanAcc) (k : Option Nat)
    (groupOrders : List Order) : PlanAcc :=
  match groupDepot acc.db dflt k with
  | none => { acc with errors := acc.errors ++ [PlanError.noDepot groupOrders.length] }
  | some depot =>
    let available := couriers.filter (fun c => !(acc.usedCourierIds.contains c.id))
    if available.isEmpty then
      { acc with errors := acc.errors ++ [PlanError.noCouriers k groupOrders.length] }
    else
      match solver groupOrders available depot with
      | none => { acc with errors := acc.errors ++ [PlanError.vrpException k] }
      | some routesData =>
        if routesData.isEmpty then
          { acc with errors := acc.errors ++ [PlanError.solveFailed groupOrders.length] }
        else processAssignments date uid acc routesData

/-- The loop over all depot groups, in key insertion order. -/
def processGroups (solver : Solver) (db0 : DB) (couriers : List Courier)
    (dflt : Option Point) (snapshot : List Order) (date : String)
    (uid : Option Nat) (acc : PlanAcc) : List (Option Nat) → PlanAcc
  | [] => acc
  | k :: rest =>
    processGroups solver db0 couriers dflt snapshot date uid
      (processGroup solver couriers dflt date uid acc k
        (snapshot.filter (fun o => pointKeyOf db0 o = k)))
      rest

/-- The scoped courier pool of the optimization endpoint. -/
def scopedCouriers (db : DB) (uid : Option Nat) : List Courier :=
  db.couriers.filter (fun c => scopedBy uid c.userId)

/-- `Order.query.filter_by(visit_date=date, status='planned', route_id=None)`,
scoped to the current user: the free planned orders of the date. -/
def plannedFreeOrders (db : DB) (uid : Option Nat) (date : String) : List Order :=
  db.orders.filter (fun o =>
    o.visitDate = date && o.status = "planned" && o.routeId = none &&
      scopedBy uid o.userId)

/-- The depot-group loop of the optimization endpoint, run from the fresh
accumulator. -/
def optimizeAcc (solver : Solver) (db : DB) (uid : Option Nat)
    (date : String) : PlanAcc :=
  processGroups solver db (scopedCouriers db uid) (defaultPointFor db uid)
    (plannedFreeOrders db uid date) date uid
    { db := db, createdIds := [], errors := [], usedCourierIds := [] }
    (groupKeysOf db (plannedFreeOrders db uid date))

/-- `POST /api/routes/optimize` (`api_routes_optimize`): collect scoped
couriers and free planned orders for the date, group by depot, run the solver
per group, and aggregate per-group failures.  The pair is the JSON response
and the committed database. -/
def api_routes_optimize (solver : Solver) (db : DB) (uid : Option Nat)
    (date : String) : OptResult × DB :=
  if (scopedCouriers db uid).isEmpty then (OptResult.errNoCouriers, db)
  else if (plannedFreeOrders db uid date).isEmpty then (OptResult.errNoOrders, db)
  else
    let acc := optimizeAcc solver db uid date
    if acc.createdIds.isEmpty && !acc.errors.isEmpty then
      (OptResult.errAllFailed acc.errors, acc.db)
    else (OptResult.ok acc.createdIds acc.errors, acc.db)

/-! ### Problem builders (`optimizer.solve_vrp` jobs, `optimizer_2gis`
waypoints) -/

/-- `map(int, s.split(':'))` unpacked into two values: parse `HH:MM`,
`none` on any `ValueError`. -/
def parseHM (s : String) : Option (Int × Int) :=
  match s.splitOn ":" with
  | [h, m] =>
    match h.toInt?, m.toInt? with
    | some hv, some mv => some (hv, mv)
    | _, _ => none
  | _ => none

/-- `x or d` for a nullable integer column (Python: `None` and `0` are falsy). -/
def orDefaultInt (x : Option Int) (d : Int) : Int :=
  match x with
  | some v => if v ≠ 0 then v else d
  | none => d

/-- The nested `get_time_windows` of `optimizer.solve_vrp`.  `base` is the
timestamp of midnight of the resolved base date (`route_date` when it parses,
today otherwise).  Declared `HH:MM` windows are used when both are truthy and
parse; otherwise the default shift window 09:00–18:00.  `datetime.replace`
raises (outside the `try`) when a parsed value is out of range: that is the
`none` result. -/
def get_time_windows (base : Int) (o : Order) : Option (List (Int × Int)) :=
  let strs : Option (String × String) :=
    match o.timeWindowStart, o.timeWindowEnd with
    | some a, some b => if a ≠ "" ∧ b ≠ "" then some (a, b) else none
    | _, _ => none
  let hm : (Int × Int) × (Int × Int) :=
    match strs with
    | some (a, b) =>
      match parseHM a, parseHM b with
      | some s, some e => (s, e)
      | _, _ => ((9, 0), (18, 0))
    | none => ((9, 0), (18, 0))
  if 0 ≤ hm.1.1 ∧ hm.1.1 < 24 ∧ 0 ≤ hm.1.2 ∧ hm.1.2 < 60 ∧
      0 ≤ hm.2.1 ∧ hm.2.1 < 24 ∧ 0 ≤ hm.2.2 ∧ hm.2.2 < 60 then
    some [(base + hm.1.1 * 3600 + hm.1.2 * 60, base + hm.2.1 * 3600 + hm.2.2 * 60)]
  else none

/-- One ORS `optimization.Job` as built by `solve_vrp`.  The skill string
`'vehicle_<id>'` is represented by the courier id. -/
structure Job where
  id : Nat
  location : ℚ × ℚ
  service : Int
  skills : Option (List Nat)
  timeWindows : List (Int × Int)
deriving DecidableEq, Repr

/-- The jobs loop of `optimizer.solve_vrp`: skip orders without truthy
coordinates, default the service time to 5 minutes, attach the required-courier
skill, and always attach the time windows.  A window `ValueError` propagates
(`none`). -/
def buildJobs (base : Int) : List Order → Option (List Job)
  | [] => some []
  | o :: rest =>
    if qTruthy o.lat ∧ qTruthy o.lon then
      match get_time_windows base o with
      | none => none
      | some tw =>
        match buildJobs base rest with
        | none => none
        | some js =>
          some ({ id := o.id,
                  location := (o.lon.getD 0, o.lat.getD 0),
                  service := orDefaultInt o.timeAtPoint 5 * 60,
                  skills :=
                    match o.requiredCourierId with
                    | some c => if c ≠ 0 then some [c] else none
                    | none => none,
                  timeWindows := tw } :: js)
    else buildJobs base rest

/-- One 2GIS waypoint dict as built by `_build_waypoints` (absent dict keys
are `none`). -/
structure Waypoint where
  waypointId : Nat
  point : ℚ × ℚ
  serviceTime : Option Int
  deliveryValue : Option Int
  pickupValue : Option Int
  timeWindows : Option (List (Int × Int))
deriving DecidableEq, Repr

/-- `optimizer_2gis._get_time_windows`: seconds from midnight, only when both
`HH:MM` strings are truthy and parse; otherwise `None` — no default window.
The unused `route_date` parameter of the source is dropped. -/
def _get_time_windows (o : Order) : Option (List (Int × Int)) :=
  match o.timeWindowStart, o.timeWindowEnd with
  | some a, some b =>
    if a ≠ "" ∧ b ≠ "" then
      match parseHM a, parseHM b with
      | some s, some e => some [(s.1 * 3600 + s.2 * 60, e.1 * 3600 + e.2 * 60)]
      | _, _ => none
    else none
  | _, _ => none

/-- The per-order waypoint of `_build_waypoints`: service time defaults to 15
minutes, `delivery_value`/`pickup_value` from the order kind, and
`time_windows` only when `_get_time_windows` produced one. -/
def orderWaypoint (o : Order) : Waypoint :=
  { waypointId := o.id,
    point := (o.lat.getD 0, o.lon.getD 0),
    serviceTime := some (orDefaultInt o.timeAtPoint 15 * 60),
    deliveryValue := if o.kind = some "delivery" then some 1 else none,
    pickupValue := if o.kind = some "delivery" then none else some 1,
    timeWindows := _get_time_windows o }

/-- `optimizer_2gis._build_waypoints`: the depot waypoint (id 0, bare point)
followed by one waypoint per order. -/
def _build_waypoints (orders : List Order) (depot : ℚ × ℚ) : List Waypoint :=
  { waypointId := 0, point := depot, serviceTime := none,
    deliveryValue := none, pickupValue := none, timeWindows := none } ::
    orders.map orderWaypoint

/-! ### Asynchronous solver polling (`optimizer_2gis._poll_vrp_status`) -/

/-- `MAX_POLL_ATTEMPTS` from `optimizer_2gis.py`. -/
def MAX_POLL_ATTEMPTS : Nat := 60

/-- `POLL_INTERVAL_SECONDS` from `optimizer_2gis.py`. -/
def POLL_INTERVAL_SECONDS : Nat := 2

/-- One observed status response: a transport error (`RequestException`), or a
parsed body with its `status` string and optional `urls.url_vrp_solution`. -/
inductive PollResponse where
  | httpError
  | ok (status : String) (solutionUrl : Option String)
deriving DecidableEq, Repr

/-- The `for attempt in range(MAX_POLL_ATTEMPTS)` loop of `_poll_vrp_status`.
`resp i` is the status endpoint's answer at attempt `i`; `fetch u` is
`_fetch_solution(u)` (`none` when the download fails).  The second component
counts the seconds spent in `time.sleep`. -/
def pollLoop {σ : Type} (resp : Nat → PollResponse) (fetch : String → Option σ) :
    Nat → Nat → Nat → Option σ × Nat
  | _, 0, slept => (none, slept)
  | i, rem+1, slept =>
    match resp i with
    | PollResponse.httpError => pollLoop resp fetch (i+1) rem (slept + POLL_INTERVAL_SECONDS)
    | PollResponse.ok st url =>
      if st = "Done" then
        match url with
        | some u => (fetch u, slept)
        | none => (none, slept)
      else if st = "Partial" then
        match url with
        | some u => (fetch u, slept)
        | none => (none, slept)
      else if st = "Fail" then (none, slept)
      else pollLoop resp fetch (i+1) rem (slept + POLL_INTERVAL_SECONDS)

/-- `optimizer_2gis._poll_vrp_status`: run the loop from attempt 0 with the
full attempt budget; falling off the loop is the timed-out failure. -/
def _poll_vrp_status {σ : Type} (resp : Nat → PollResponse)
    (fetch : String → Option σ) : Option σ × Nat :=
  pollLoop resp fetch 0 MAX_POLL_ATTEMPTS 0

/-- A response is non-terminal when the loop sleeps and retries on it:
a transport error, or a status other than Done/Partial/Fail. -/
def nonTerminalResp : PollResponse → Bool
  | PollResponse.httpError => true
  | PollResponse.ok st _ => st ≠ "Done" && st ≠ "Partial" && st ≠ "Fail"

/-- The contract of the external VRP backend: a returned solution names each
vehicle at most once (ORS/2GIS return one route per vehicle) and only names
vehicles it was given. -/
def SolverContract (solver : Solver) : Prop :=
  ∀ os cs dep res, solver os cs dep = some res →
    (res.map (fun a => a.courierId)).Nodup ∧
    ∀ a ∈ res, a.courierId ∈ cs.map (fun c => c.id)

/-- The invariant of the depot-group loop backing claim C4: route ids stay
below the id counter, created ids are route ids, created routes have pairwise
distinct couriers, and every created route's courier is in the used set. -/
def PlanNodupInv (acc : PlanAcc) : Prop :=
  (∀ r ∈ acc.db.routes, r.id < acc.db.nextRouteId) ∧
  (∀ i ∈ acc.createdIds, i < acc.db.nextRouteId) ∧
  ((acc.db.routes.filter (fun r => r.id ∈ acc.createdIds)).map
      (fun r => r.courierId)).Nodup ∧
  (∀ r ∈ acc.db.routes, r.id ∈ acc.createdIds → r.courierId ∈ acc.usedCourierIds)

/-- The relation backing claim C3: an order row after planning is either
untouched or linked to a freshly created route with status reset to planned
(its `routePosition` in particular is unchanged). -/
def PlanTouched (n0 : Nat) (o o2 : Order) : Prop :=
  o2 = o ∨ ∃ rid2, n0 ≤ rid2 ∧ o2 = { o with routeId := some rid2, status := "planned" }

/-- The order-table invariant of the depot-group loop backing claim C3. -/
def PlanOrdersInv (n0 : Nat) (orig : List Order) (acc : PlanAcc) : Prop :=
  List.Forall₂ (PlanTouched n0) orig acc.db.orders ∧
  n0 ≤ acc.db.nextRouteId ∧
  ∀ i ∈ acc.createdIds, n0 ≤ i

/-! ### Concrete fixtures for witnesses and counterexamples -/

/-- A simple solver oracle for concrete runs: assign every order of the group
to the first available courier. -/
def exSolver : Solver := fun os cs _ =>
  match cs with
  | [] => some []
  | c :: _ => some [{ courierId := c.id, orderIds := os.map (fun o => o.id), geometry := none }]

/-- An order row with every nullable column `NULL` and default status. -/
def baseOrder : Order :=
  { id := 0, status := "planned", routeId := none, routePosition := none,
    visitDate := "", pointId := none, userId := none, lat := none, lon := none,
    timeAtPoint := none, kind := none, requiredCourierId := none,
    timeWindowStart := none, timeWindowEnd := none }

/-- A route row owned by courier 1 on date `d`. -/
def baseRoute : Route :=
  { id := 0, courierId := 1, date := "d", status := "active", geometry := none,
    userId := none }

/-- A courier row with every nullable column `NULL`. -/
def baseCourier : Courier :=
  { id := 0, userId := none, vehicleType := none, capacity := none }

/-- A depot row at coordinate (1, 2). -/
def basePoint : Point :=
  { id := 0, isPrimary := false, latitude := some 1, longitude := some 2,
    userId := none }

/-- Fixture for C2: an active route 10 with two planned stops 1 and 2. -/
def c2db : DB :=
  { orders := [{ baseOrder with id := 1, routeId := some 10 },
               { baseOrder with id := 2, routeId := some 10 }],
    routes := [{ baseRoute with id := 10 }],
    couriers := [], points := [], nextRouteId := 11 }

/-- Fixture for the C2 counterexample: route 10 with a single planned stop 1. -/
def c2ApiDb : DB :=
  { orders := [{ baseOrder with id := 1, routeId := some 10 }],
    routes := [{ baseRoute with id := 10 }],
    couriers := [], points := [], nextRouteId := 11 }

/-- Fixture for C6: a completed stop at position 0 linked to route 5. -/
def c6stop : Order := { baseOrder with id := 3, status := "completed", routeId := some 5, routePosition := some 0 }

/-- Fixture for C6: route 5 holding only `c6stop`. -/
def c6db : DB :=
  { orders := [c6stop], routes := [{ baseRoute with id := 5 }],
    couriers := [], points := [], nextRouteId := 6 }

/-- Fixture for C6: the database after deleting route 5 from `c6db`. -/
def c6db2 : DB :=
  { orders := [{ c6stop with routeId := none }], routes := [],
    couriers := [], points := [], nextRouteId := 6 }

/-- Fixture for C8: a single completed route 7. -/
def c8db : DB :=
  { orders := [], routes := [{ baseRoute with id := 7, status := "completed" }],
    couriers := [], points := [], nextRouteId := 8 }

/-- Fixture for C10: route 4 currently holding the single stop 1 at
position 0. -/
def c10db : DB :=
  { orders := [{ baseOrder with id := 1, routeId := some 4, routePosition := some 0 }],
    routes := [{ baseRoute with id := 4 }],
    couriers := [], points := [], nextRouteId := 5 }

/-- Fixture for C4/C3/C5: two free orders on date `d` (one without depot, one
at depot 2), a single courier, a primary depot 1 and a depot 2. -/
def c4db : DB :=
  { orders := [{ baseOrder with id := 1, visitDate := "d" },
               { baseOrder with id := 2, visitDate := "d", pointId := some 2 }],
    routes := [],
    couriers := [{ baseCourier with id := 1 }],
    points := [{ basePoint with id := 1, isPrimary := true }, { basePoint with id := 2 }],
    nextRouteId := 100 }

/-- Fixture for C5: an order but no couriers in scope. -/
def c5db : DB :=
  { orders := [{ baseOrder with id := 1, visitDate := "d" }],
    routes := [], couriers := [], points := [], nextRouteId := 1 }

/-- Fixture for C7: a stop with coordinates and no declared time window. -/
def c7stop : Order := { baseOrder with id := 1, lat := some 1, lon := some 1 }

/-- Fixture for C9: three in-progress polls, then a completed task. -/
def c9resp : Nat → PollResponse := fun j =>
  if j < 3 then PollResponse.ok "Run" none else PollResponse.ok "Done" (some "u")

/-- Fixture for C9: a solution download oracle. -/
def c9fetch : String → Option Nat := fun _ => some 42

end YoRote

/-! ## Theorems -/

namespace YoRote

/-- Rounding a rational that is exactly an integer returns that integer. -/
theorem pyRound_eq_of_int (q : ℚ) (n : ℤ) (h : q = (n : ℚ)) : pyRound q = n := by
  subst h
  unfold pyRound
  norm_num

/-- C1: evaluation of the geo codec at the failing input.  Encoding
`[(0, 0), (-0.001, 0)]` yields the characters `[63, 63, 101, 69, 63]`
(the latitude delta `-100` is emitted as the unsigned varint of
`(~(-100)) << 1 = 198` because of the precedence slip `~num << 1` in
`_encode_number`), and decoding that string returns `(0.00099, 0)` for the
second point — off by `0.00199`, far beyond the 1e-5 tolerance.  Also,
the empty sequence encodes to `None`, not the empty string, while
`decode_polyline('')` is indeed the empty sequence. -/
theorem C1_roundtrip_failure_eval :
    _encode_coords_to_polyline [((0:ℚ), 0), (-(1:ℚ)/1000, 0)] = some [63, 63, 101, 69, 63] ∧
    decode_polyline [63, 63, 101, 69, 63] = some [((0:ℚ), 0), ((99:ℚ)/100000, 0)] ∧
    |(99:ℚ)/100000 - (-(1:ℚ)/1000)| > 1/100000 ∧
    _encode_coords_to_polyline ([] : List (ℚ × ℚ)) = none ∧
    decode_polyline [] = some [] := by
  refine ⟨?_, ?_, ?_, by decide, by decide⟩
  · have h0 : pyRound (0:ℚ) = 0 := pyRound_eq_of_int _ 0 (by norm_num)
    have h1 : pyRound ((-(1:ℚ)/1000) * 100000) = -100 := pyRound_eq_of_int _ (-100) (by norm_num)
    simp [_encode_coords_to_polyline, h0, h1]
    decide
  · have h : decodeGo 5 [63, 63, 101, 69, 63] 0 0 = some [((0:ℤ), (0:ℤ)), (99, 0)] := by decide
    unfold decode_polyline
    norm_num [h]
  · rw [abs_sub_comm]
    norm_num [abs]

/-! ### Generic list helper lemmas -/

/-- `find?` commutes with a map that does not change the tested predicate. -/
theorem find?_map_comm {α : Type} (f : α → α) (p : α → Bool)
    (h : ∀ a, p (f a) = p a) : ∀ l : List α, (l.map f).find? p = (l.find? p).map f := by
  intro l
  induction l with
  | nil => rfl
  | cons a l ih =>
    by_cases ha : p a = true
    · simp [List.find?_cons, ha, h a]
    · have ha2 : p (f a) = false := by rw [h a]; exact Bool.not_eq_true _ ▸ (by simpa using ha)
      simp [List.find?_cons, Bool.not_eq_true _ ▸ (by simpa using ha : p a = false), ha2, ih]

/-- `filter` commutes with a map that does not change the tested predicate. -/
theorem filter_map_comm {α : Type} (f : α → α) (p : α → Bool)
    (h : ∀ a, p (f a) = p a) : ∀ l : List α, (l.map f).filter p = (l.filter p).map f := by
  intro l
  induction l with
  | nil => rfl
  | cons a l ih =>
    by_cases ha : p a = true
    · simp [List.filter_cons, ha, h a, ih]
    · have ha' : p a = false := by simpa using ha
      have ha2 : p (f a) = false := by rw [h a]; exact ha'
      simp [List.filter_cons, ha', ha2, ih]

/-- Membership on the right of a pointwise relation between lists. -/
theorem forall₂_mem_right {α β : Type} {R : α → β → Prop} :
    ∀ {l : List α} {l' : List β}, List.Forall₂ R l l' → ∀ b ∈ l', ∃ a ∈ l, R a b := by
  intro l l' h
  induction h with
  | nil => intro b hb; cases hb
  | cons hR _ ih =>
    intro b hb
    rcases List.mem_cons.mp hb with hb | hb
    · exact ⟨_, List.mem_cons_self _ _, hb ▸ hR⟩
    · rcases ih b hb with ⟨a, ha, hab⟩
      exact ⟨a, List.mem_cons_of_mem _ ha, hab⟩

end YoRote

namespace YoRote

/-- Closed-form description of `check_and_complete_route`. -/
theorem cc_spec (db : DB) (rid : Nat) :
    check_and_complete_route db rid =
      if routeStatus? db rid = some "active" ∧ linkedOrders db rid ≠ [] ∧
          (linkedOrders db rid).all isTerminal = true then
        ({ db with routes := db.routes.map (setRouteStatusRow rid "completed") }, true)
      else (db, false) := by
  unfold check_and_complete_route
  cases h : findRoute db rid with
  | none => simp [routeStatus?, h]
  | some route =>
    by_cases hs : route.status = "active"
    · by_cases he : (linkedOrders db rid).isEmpty
      · have he' : linkedOrders db rid = [] := List.isEmpty_iff.mp he
        simp [routeStatus?, h, hs, he, he']
      · by_cases ha : (linkedOrders db rid).all isTerminal = true
        · have he' : ¬ linkedOrders db rid = [] := by
            intro hx; rw [hx] at he; exact he rfl
          simp [routeStatus?, h, hs, he, ha, he']
        · have he' : ¬ linkedOrders db rid = [] := by
            intro hx; rw [hx] at he; exact he rfl
          simp [routeStatus?, h, hs, he, ha, he']
    · simp [routeStatus?, h, hs]



/-- `find?` over route rows after a status-row update. -/
theorem findRoute_map_setStatus (db : DB) (rid rid2 : Nat) (st : String) :
    findRoute { db with routes := db.routes.map (setRouteStatusRow rid st) } rid2 =
      (findRoute db rid2).map (setRouteStatusRow rid st) := by
  unfold findRoute
  exact find?_map_comm _ _
    (fun r => by unfold setRouteStatusRow; by_cases h : r.id = rid <;> simp [h]) _

/-- The auto-completion flag is set exactly under the documented condition. -/
theorem cc_flag_iff (db : DB) (rid : Nat) :
    (check_and_complete_route db rid).2 = true ↔
      routeStatus? db rid = some "active" ∧ linkedOrders db rid ≠ [] ∧
        (linkedOrders db rid).all isTerminal = true := by
  rw [cc_spec]
  split
  · simp_all
  · simp_all

/-- When the flag is set the route's status has become completed. -/
theorem cc_completes (db : DB) (rid : Nat)
    (h : (check_and_complete_route db rid).2 = true) :
    routeStatus? (check_and_complete_route db rid).1 rid = some "completed" := by
  rw [cc_spec] at h ⊢
  split at h
  case isTrue hc =>
    simp only [if_pos hc]
    rcases hc with ⟨hact, -, -⟩
    unfold routeStatus? at hact ⊢
    rw [findRoute_map_setStatus]
    cases hf : findRoute db rid with
    | none => rw [hf] at hact; cases hact
    | some r =>
      have : r.id = rid := by
        have := List.find?_some hf
        simpa using this
      simp [setRouteStatusRow, this]
  case isFalse hc => cases h

/-- When the flag is clear the database is unchanged. -/
theorem cc_noop (db : DB) (rid : Nat)
    (h : (check_and_complete_route db rid).2 = false) :
    (check_and_complete_route db rid).1 = db := by
  rw [cc_spec] at h ⊢
  split at h
  case isTrue hc => cases h
  case isFalse hc => rw [if_neg hc]

/-- `check_and_complete_route` never touches the order table. -/
theorem cc_orders (db : DB) (rid : Nat) :
    (check_and_complete_route db rid).1.orders = db.orders := by
  rw [cc_spec]
  split
  · rfl
  · rfl

/-- A completed route stays completed through `check_and_complete_route`
(for any route id, including the checked one). -/
theorem cc_keeps_completed (db : DB) (rid rid2 : Nat)
    (h : routeStatus? db rid2 = some "completed") :
    routeStatus? (check_and_complete_route db rid).1 rid2 = some "completed" := by
  rw [cc_spec]
  split
  · unfold routeStatus? at h ⊢
    rw [findRoute_map_setStatus]
    cases hf : findRoute db rid2 with
    | none => rw [hf] at h; cases h
    | some r =>
      rw [hf] at h
      simp only [Option.map_some'] at h ⊢
      unfold setRouteStatusRow
      by_cases hid : r.id = rid <;> simp [hid, h]
  · exact h


end YoRote

namespace YoRote

theorem routeStatus?_setOrderStatus (db : DB) (oid : Nat) (st : String) (rid : Nat) :
    routeStatus? (setOrderStatus db oid st) rid = routeStatus? db rid := rfl

theorem linkedOrders_setOrderStatus (db : DB) (oid : Nat) (st : String) (rid : Nat) :
    linkedOrders (setOrderStatus db oid st) rid =
      (linkedOrders db rid).map (markOrderRow oid st) := by
  unfold linkedOrders setOrderStatus
  exact filter_map_comm _ _
    (fun o => by unfold markOrderRow; by_cases h : o.id = oid <;> simp [h]) _

/-- Marking one order terminal and then re-checking its route behaves as the
auto-completion rule dictates. -/
theorem mark_then_check_spec (db : DB) (oid : Nat) (st : String) (rid : Nat)
    (hst : st = "completed" ∨ st = "failed") :
    ((check_and_complete_route (setOrderStatus db oid st) rid).2 = true ↔
       routeStatus? db rid = some "active" ∧ linkedOrders db rid ≠ [] ∧
         ∀ x ∈ linkedOrders db rid, x.id = oid ∨ isTerminal x = true) ∧
    ((check_and_complete_route (setOrderStatus db oid st) rid).2 = true →
       routeStatus? (check_and_complete_route (setOrderStatus db oid st) rid).1 rid =
         some "completed") ∧
    ((check_and_complete_route (setOrderStatus db oid st) rid).2 = false →
       routeStatus? (check_and_complete_route (setOrderStatus db oid st) rid).1 rid =
         routeStatus? db rid) ∧
    (linkedOrders db rid = [] →
       (check_and_complete_route (setOrderStatus db oid st) rid).2 = false) := by
  have hterm : ∀ x : Order,
      isTerminal (markOrderRow oid st x) = true ↔ (x.id = oid ∨ isTerminal x = true) := by
    intro x
    unfold markOrderRow
    by_cases h : x.id = oid
    · rcases hst with h2 | h2 <;> simp [h, h2, isTerminal]
    · simp [h]
  have hflag : (check_and_complete_route (setOrderStatus db oid st) rid).2 = true ↔
      routeStatus? db rid = some "active" ∧ linkedOrders db rid ≠ [] ∧
        ∀ x ∈ linkedOrders db rid, x.id = oid ∨ isTerminal x = true := by
    rw [cc_flag_iff, routeStatus?_setOrderStatus, linkedOrders_setOrderStatus]
    constructor
    · rintro ⟨h1, h2, h3⟩
      refine ⟨h1, fun hx => h2 (by simp [hx]), ?_⟩
      intro x hx
      have := (List.all_eq_true.mp h3) _ (List.mem_map_of_mem _ hx)
      exact (hterm x).mp this
    · rintro ⟨h1, h2, h3⟩
      refine ⟨h1, by simpa using h2, ?_⟩
      rw [List.all_eq_true]
      rintro y hy
      rcases List.mem_map.mp hy with ⟨x, hx, rfl⟩
      exact (hterm x).mpr (h3 x hx)
  refine ⟨hflag, fun h => cc_completes _ _ h, fun h => ?_, fun h => ?_⟩
  · rw [cc_noop _ _ h, routeStatus?_setOrderStatus]
  · cases hb : (check_and_complete_route (setOrderStatus db oid st) rid).2 with
    | false => rfl
    | true =>
      rcases hflag.mp hb with ⟨-, h2, -⟩
      exact absurd h h2

theorem process_photo_proof_eq (db : DB) (oid : Nat) (o : Order) (rid : Nat)
    (hfind : findOrder db oid = some o) (hrid : o.routeId = some rid) :
    process_photo_proof db oid =
      check_and_complete_route (setOrderStatus db oid "completed") rid := by
  unfold process_photo_proof
  rw [hfind]
  simp [hrid]

theorem process_failure_reason_eq (db : DB) (oid : Nat) (o : Order) (rid : Nat)
    (hfind : findOrder db oid = some o) (hrid : o.routeId = some rid) :
    process_failure_reason db oid =
      check_and_complete_route (setOrderStatus db oid "failed") rid := by
  unfold process_failure_reason
  rw [hfind]
  simp [hrid]

/-- C2 (amended): the bot's terminal-marking handlers (photo proof →
completed, failure reason → failed) synchronously re-evaluate the owning
route: the auto-completion flag is reported exactly when the route was active,
had at least one linked stop, and after the marking every linked stop is
terminal; when it is reported the route's status is completed, otherwise the
route's status is unchanged, and a route with zero linked stops never
auto-completes.  The A/B scenario holds for these handlers.  (The generic
order-update endpoint `PUT /api/orders/<id>` does not re-evaluate the route:
see the counterexample.) -/
theorem C2_bot_marking_reevaluates :
    (∀ db oid o rid, findOrder db oid = some o → o.routeId = some rid →
       (((process_photo_proof db oid).2 = true ↔
           routeStatus? db rid = some "active" ∧ linkedOrders db rid ≠ [] ∧
             ∀ x ∈ linkedOrders db rid, x.id = oid ∨ isTerminal x = true) ∧
        ((process_photo_proof db oid).2 = true →
           routeStatus? (process_photo_proof db oid).1 rid = some "completed") ∧
        ((process_photo_proof db oid).2 = false →
           routeStatus? (process_photo_proof db oid).1 rid = routeStatus? db rid) ∧
        (linkedOrders db rid = [] → (process_photo_proof db oid).2 = false))) ∧
    (∀ db oid o rid, findOrder db oid = some o → o.routeId = some rid →
       (((process_failure_reason db oid).2 = true ↔
           routeStatus? db rid = some "active" ∧ linkedOrders db rid ≠ [] ∧
             ∀ x ∈ linkedOrders db rid, x.id = oid ∨ isTerminal x = true) ∧
        ((process_failure_reason db oid).2 = true →
           routeStatus? (process_failure_reason db oid).1 rid = some "completed") ∧
        ((process_failure_reason db oid).2 = false →
           routeStatus? (process_failure_reason db oid).1 rid = routeStatus? db rid) ∧
        (linkedOrders db rid = [] → (process_failure_reason db oid).2 = false))) ∧
    ((process_photo_proof c2db 1).2 = false ∧
     routeStatus? (process_photo_proof c2db 1).1 10 = some "active" ∧
     (process_failure_reason (process_photo_proof c2db 1).1 2).2 = true ∧
     routeStatus? (process_failure_reason (process_photo_proof c2db 1).1 2).1 10 =
       some "completed") := by
  refine ⟨?_, ?_, by decide⟩
  · intro db oid o rid hfind hrid
    rw [process_photo_proof_eq db oid o rid hfind hrid]
    exact mark_then_check_spec db oid "completed" rid (Or.inl rfl)
  · intro db oid o rid hfind hrid
    rw [process_failure_reason_eq db oid o rid hfind hrid]
    exact mark_then_check_spec db oid "failed" rid (Or.inr rfl)

/-- C2 counterexample: `PUT /api/orders/<id>` with `{"status": "completed"}`
marks the last open stop of route 10 completed, after which every linked stop
is terminal and the route is active with a linked stop — yet the route's
status is still `active`: the endpoint performed no re-evaluation, refuting
"after ANY operation that sets a stop's status to completed or failed ... the
route's status is completed". -/
theorem C2_api_order_no_reevaluation :
    api_order_put_status c2ApiDb 1 "completed" =
      some (setOrderStatus c2ApiDb 1 "completed") ∧
    routeStatus? (setOrderStatus c2ApiDb 1 "completed") 10 = some "active" ∧
    linkedOrders (setOrderStatus c2ApiDb 1 "completed") 10 ≠ [] ∧
    (linkedOrders (setOrderStatus c2ApiDb 1 "completed") 10).all isTerminal = true := by
  decide

/-- C2 witness: the amended theorem applied to the concrete two-stop route. -/
theorem C2_witness :
    ((process_photo_proof c2db 1).2 = true ↔
       routeStatus? c2db 10 = some "active" ∧ linkedOrders c2db 10 ≠ [] ∧
         ∀ x ∈ linkedOrders c2db 10, x.id = 1 ∨ isTerminal x = true) ∧
    ((process_photo_proof c2db 1).2 = true →
       routeStatus? (process_photo_proof c2db 1).1 10 = some "completed") ∧
    ((process_photo_proof c2db 1).2 = false →
       routeStatus? (process_photo_proof c2db 1).1 10 = routeStatus? c2db 10) ∧
    (linkedOrders c2db 10 = [] → (process_photo_proof c2db 1).2 = false) :=
  C2_bot_marking_reevaluates.1 c2db 1 { baseOrder with id := 1, routeId := some 10 } 10
    (by decide) (by decide)

end YoRote

namespace YoRote

theorem map_map_congr {α β : Type} (g : α → α) (f f' : α → β)
    (h : ∀ a, f (g a) = f' a) (l : List α) : (l.map g).map f = l.map f' := by
  induction l with
  | nil => rfl
  | cons a l ih => simp [h, ih]

theorem find?_append_left {α : Type} {p : α → Bool} {l l' : List α} {a : α}
    (h : l.find? p = some a) : (l ++ l').find? p = some a := by
  induction l with
  | nil => cases h
  | cons x l ih =>
    rw [List.cons_append]
    by_cases hx : p x = true
    · rw [List.find?_cons_of_pos _ hx] at h ⊢
      exact h
    · have hx' : p x = false := by simpa using hx
      rw [List.find?_cons_of_neg _ (by simp [hx'])] at h ⊢
      exact ih h

/-- C6 (amended): deleting a route clears only the route linkage of its stops:
statuses and route positions are left untouched, the other tables and the
non-deleted routes are preserved, and an unknown route id is a NotFound with
no state change. -/
theorem C6_delete_unlinks_only :
    (∀ db rid db2, api_route_delete db rid = some db2 →
       db2.orders.map (fun o => o.status) = db.orders.map (fun o => o.status) ∧
       db2.orders.map (fun o => o.routePosition) =
         db.orders.map (fun o => o.routePosition) ∧
       db2.orders.map (fun o => o.id) = db.orders.map (fun o => o.id) ∧
       db2.orders.map (fun o => o.routeId) =
         db.orders.map (fun o => if o.routeId = some rid then none else o.routeId) ∧
       (∀ r, r ∈ db2.routes ↔ r ∈ db.routes ∧ r.id ≠ rid) ∧
       db2.couriers = db.couriers ∧ db2.points = db.points) ∧
    (∀ db rid, api_route_delete db rid = none ↔ findRoute db rid = none) := by
  constructor
  · intro db rid db2 h
    unfold api_route_delete at h
    cases hf : findRoute db rid with
    | none => rw [hf] at h; cases h
    | some route =>
      rw [hf] at h
      injection h with h2
      subst h2
      refine ⟨?_, ?_, ?_, ?_, ?_, rfl, rfl⟩
      · exact map_map_congr _ _ _
          (fun o => by unfold unlinkRouteRow; by_cases hx : o.routeId = some rid <;> simp [hx]) _
      · exact map_map_congr _ _ _
          (fun o => by unfold unlinkRouteRow; by_cases hx : o.routeId = some rid <;> simp [hx]) _
      · exact map_map_congr _ _ _
          (fun o => by unfold unlinkRouteRow; by_cases hx : o.routeId = some rid <;> simp [hx]) _
      · exact map_map_congr _ _ _
          (fun o => by unfold unlinkRouteRow; by_cases hx : o.routeId = some rid <;> simp [hx]) _
      · intro r
        constructor
        · intro hr
          have := List.mem_filter.mp hr
          exact ⟨this.1, by simpa using this.2⟩
        · intro hr
          exact List.mem_filter.mpr ⟨hr.1, by simpa using hr.2⟩
  · intro db rid
    unfold api_route_delete
    cases hf : findRoute db rid with
    | none => simp
    | some route => simp

/-- C6 counterexample: deleting route 5, whose only stop is completed at
position 0, leaves that stop with status `completed` (not reset to `planned`)
and position still `0` (not cleared) — only the linkage is gone.  This refutes
the claimed reset-to-planned and position-clearing. -/
theorem C6_delete_keeps_status_and_position :
    (api_route_delete c6db 5).map
        (fun d => d.orders.map (fun o => (o.status, o.routeId, o.routePosition))) =
      some [("completed", none, some 0)] := by
  decide

/-- C6 witness: the amended theorem applied to the concrete one-stop route. -/
theorem C6_witness :
    c6db2.orders.map (fun o => o.status) = c6db.orders.map (fun o => o.status) ∧
    c6db2.orders.map (fun o => o.routePosition) =
      c6db.orders.map (fun o => o.routePosition) ∧
    c6db2.orders.map (fun o => o.id) = c6db.orders.map (fun o => o.id) ∧
    c6db2.orders.map (fun o => o.routeId) =
      c6db.orders.map (fun o => if o.routeId = some 5 then none else o.routeId) ∧
    (∀ r, r ∈ c6db2.routes ↔ r ∈ c6db.routes ∧ r.id ≠ 5) ∧
    c6db2.couriers = c6db.couriers ∧ c6db2.points = c6db.points :=
  C6_delete_unlinks_only.1 c6db 5 c6db2 (by decide)

end YoRote

namespace YoRote

theorem processAssignments_routes_ext (date : String) (uid : Option Nat) :
    ∀ (as : List Assignment) (acc : PlanAcc),
      ∃ ext, (processAssignments date uid acc as).db.routes = acc.db.routes ++ ext := by
  intro as
  induction as with
  | nil =>
    intro acc
    exact ⟨[], by simp [processAssignments]⟩
  | cons a rest ih =>
    intro acc
    rw [processAssignments]
    obtain ⟨ext1, h1⟩ := ih _
    refine ⟨{ id := acc.db.nextRouteId, courierId := a.courierId, date := date,
              status := "active", geometry := a.geometry, userId := uid } :: ext1, ?_⟩
    rw [h1]
    simp

theorem processGroup_routes_ext (solver : Solver) (couriers : List Courier)
    (dflt : Option Point) (date : String) (uid : Option Nat) (acc : PlanAcc)
    (k : Option Nat) (gos : List Order) :
    ∃ ext, (processGroup solver couriers dflt date uid acc k gos).db.routes =
      acc.db.routes ++ ext := by
  unfold processGroup
  cases hd : groupDepot acc.db dflt k with
  | none => exact ⟨[], by simp⟩
  | some depot =>
    dsimp only
    split
    · exact ⟨[], by simp⟩
    · cases hs : solver gos (couriers.filter (fun c => !(acc.usedCourierIds.contains c.id))) depot with
      | none => exact ⟨[], by simp⟩
      | some routesData =>
        dsimp only
        split
        · exact ⟨[], by simp⟩
        · exact processAssignments_routes_ext _ _ _ _

theorem processGroups_routes_ext (solver : Solver) (db0 : DB)
    (couriers : List Courier) (dflt : Option Point) (snapshot : List Order)
    (date : String) (uid : Option Nat) :
    ∀ (keys : List (Option Nat)) (acc : PlanAcc),
      ∃ ext, (processGroups solver db0 couriers dflt snapshot date uid acc keys).db.routes =
        acc.db.routes ++ ext := by
  intro keys
  induction keys with
  | nil =>
    intro acc
    exact ⟨[], by simp [processGroups]⟩
  | cons k rest ih =>
    intro acc
    rw [processGroups]
    obtain ⟨ext1, h1⟩ := ih (processGroup solver couriers dflt date uid acc k
      (snapshot.filter (fun o => pointKeyOf db0 o = k)))
    obtain ⟨ext0, h0⟩ := processGroup_routes_ext solver couriers dflt date uid acc k
      (snapshot.filter (fun o => pointKeyOf db0 o = k))
    refine ⟨ext0 ++ ext1, h1.trans ?_⟩
    rw [h0]
    simp

/-- Planning only appends route rows. -/
theorem optimize_routes_ext (solver : Solver) (db : DB) (uid : Option Nat)
    (date : String) :
    ∃ ext, (api_routes_optimize solver db uid date).2.routes = db.routes ++ ext := by
  unfold api_routes_optimize
  dsimp only
  split
  · exact ⟨[], by simp⟩
  · split
    · exact ⟨[], by simp⟩
    · split
      · exact processGroups_routes_ext _ _ _ _ _ _ _ _ _
      · exact processGroups_routes_ext _ _ _ _ _ _ _ _ _

/-- Any route row found before `api_routes_optimize` is found unchanged
afterwards. -/
theorem optimize_keeps_routeStatus (solver : Solver) (db : DB) (uid : Option Nat)
    (date : String) (rid2 : Nat) (s : String)
    (h : routeStatus? db rid2 = some s) :
    routeStatus? (api_routes_optimize solver db uid date).2 rid2 = some s := by
  obtain ⟨r, hr, hs⟩ : ∃ r, findRoute db rid2 = some r ∧ r.status = s := by
    unfold routeStatus? at h
    cases hf : findRoute db rid2 with
    | none => rw [hf] at h; cases h
    | some r => rw [hf] at h; exact ⟨r, rfl, by simpa using h⟩
  obtain ⟨ext, hx⟩ := optimize_routes_ext solver db uid date
  unfold findRoute at hr
  unfold routeStatus? findRoute
  rw [hx, find?_append_left hr]
  simpa using hs

/-- The reorder endpoint never touches route rows. -/
theorem edit_keeps_routes (db : DB) (rid : Nat) (ids : List Nat) (db2 : DB)
    (h : api_route_edit db rid ids = some db2) : db2.routes = db.routes := by
  unfold api_route_edit at h
  cases hf : findRoute db rid with
  | none => rw [hf] at h; cases h
  | some route =>
    rw [hf] at h
    by_cases he : ids.isEmpty
    · rw [if_pos he] at h; cases h
    · rw [if_neg he] at h
      injection h with h2
      subst h2
      rfl

/-- C8 (amended): the lifecycle operations of the core never move a route out
of `completed`: auto-completion, both bot terminal markings, manual
reordering, and planning all preserve a completed status (planning only
appends new routes).  The generic route-update endpoint
`PUT /api/routes/<id>`, however, overwrites the status with whatever the
request supplies and can set a completed route back to `active` — see the
counterexample. -/
theorem C8_lifecycle_never_resurrects :
    (∀ db rid rid2, routeStatus? db rid2 = some "completed" →
       routeStatus? (check_and_complete_route db rid).1 rid2 = some "completed") ∧
    (∀ db oid rid2, routeStatus? db rid2 = some "completed" →
       routeStatus? (process_photo_proof db oid).1 rid2 = some "completed") ∧
    (∀ db oid rid2, routeStatus? db rid2 = some "completed" →
       routeStatus? (process_failure_reason db oid).1 rid2 = some "completed") ∧
    (∀ db rid ids db2 rid2, api_route_edit db rid ids = some db2 →
       routeStatus? db2 rid2 = routeStatus? db rid2) ∧
    (∀ solver db uid date rid2, routeStatus? db rid2 = some "completed" →
       routeStatus? (api_routes_optimize solver db uid date).2 rid2 = some "completed") := by
  refine ⟨cc_keeps_completed, ?_, ?_, ?_, ?_⟩
  · intro db oid rid2 h
    unfold process_photo_proof
    cases hf : findOrder db oid with
    | none => exact h
    | some o =>
      dsimp only
      cases ho : o.routeId with
      | none => exact h
      | some rid => exact cc_keeps_completed _ rid rid2 h
  · intro db oid rid2 h
    unfold process_failure_reason
    cases hf : findOrder db oid with
    | none => exact h
    | some o =>
      dsimp only
      cases ho : o.routeId with
      | none => exact h
      | some rid => exact cc_keeps_completed _ rid rid2 h
  · intro db rid ids db2 rid2 h
    have := edit_keeps_routes db rid ids db2 h
    unfold routeStatus? findRoute
    rw [this]
  · intro solver db uid date rid2 h
    exact optimize_keeps_routeStatus solver db uid date rid2 "completed" h

/-- C8 counterexample: `PUT /api/routes/7` with body `{"status": "active"}`
on the completed route 7 sets it back to `active`, refuting "a Route whose
status is completed is never transitioned back to active by any operation of
the core" for the route-update endpoint cited by the claim. -/
theorem C8_route_put_resurrects :
    routeStatus? c8db 7 = some "completed" ∧
    (api_route_put c8db 7 (some "active") none).map (fun d => routeStatus? d 7) =
      some (some "active") := by
  decide

/-- C8 witness: auto-completion re-checking route 7 leaves it completed. -/
theorem C8_witness :
    routeStatus? (check_and_complete_route c8db 7).1 7 = some "completed" :=
  C8_lifecycle_never_resurrects.1 c8db 7 7 (by decide)

end YoRote

namespace YoRote

theorem find?_append_none {α : Type} {p : α → Bool} {l l' : List α}
    (h : l.find? p = none) : (l ++ l').find? p = l'.find? p := by
  induction l with
  | nil => rfl
  | cons x l ih =>
    rw [List.find?_eq_none] at h
    have hx : p x = false := by
      have := h x (List.mem_cons_self _ _)
      simpa using this
    rw [List.cons_append, List.find?_cons_of_neg _ (by simp [hx])]
    exact ih (List.find?_eq_none.mpr (fun y hy => h y (List.mem_cons_of_mem _ hy)))

/-- Among pairs with pairwise-distinct second components, searching the
reversed list for a given second component finds the unique pair. -/
theorem find?_reverse_unique {ps : List (Nat × Nat)} {i v : Nat}
    (hnd : (ps.map Prod.snd).Nodup) (hmem : (i, v) ∈ ps) :
    ps.reverse.find? (fun pr => pr.2 = v) = some (i, v) := by
  induction ps with
  | nil => cases hmem
  | cons q rest ih =>
    rw [List.map_cons, List.nodup_cons] at hnd
    obtain ⟨hq2, htail⟩ := hnd
    rw [List.reverse_cons]
    rcases List.mem_cons.mp hmem with hq | hq
    · subst hq
      have hnone : rest.reverse.find? (fun pr => pr.2 = v) = none := by
        rw [List.find?_eq_none]
        intro x hx hv
        apply hq2
        show v ∈ rest.map Prod.snd
        have hx2 : x.2 = v := by simpa using hv
        rw [← hx2]
        exact List.mem_map_of_mem _ (List.mem_reverse.mp hx)
      rw [find?_append_none hnone]
      rw [List.find?_cons_of_pos _ (by simp)]
    · exact find?_append_left (ih htail hq)

theorem nodup_enum_snd (ids : List Nat) (hnd : ids.Nodup) :
    (ids.enum.map Prod.snd).Nodup := by
  rw [List.enum_eq_enumFrom, List.enumFrom_map_snd]
  exact hnd

/-- Overwriting linkage and position after `linkAtRow` is the same as
overwriting them on the original row. -/
theorem linkAtRow_overwrite (rid pos oid : Nat) (o : Order) (r2 : Option Nat)
    (p2 : Option Nat) :
    { linkAtRow rid pos oid o with routeId := r2, routePosition := p2 } =
      { o with routeId := r2, routePosition := p2 } := by
  unfold linkAtRow
  by_cases h : o.id = oid
  · rw [if_pos h]
  · rw [if_neg h]

/-- Overwriting linkage and position after `unlinkAndClearRow` is the same as
overwriting them on the original row. -/
theorem unlinkAndClearRow_overwrite (rid : Nat) (o : Order) (r2 : Option Nat)
    (p2 : Option Nat) :
    { unlinkAndClearRow rid o with routeId := r2, routePosition := p2 } =
      { o with routeId := r2, routePosition := p2 } := by
  unfold unlinkAndClearRow
  by_cases h : o.routeId = some rid
  · rw [if_pos h]
  · rw [if_neg h]

theorem forall₂_map_self {α β : Type} (f : α → β) (R : α → β → Prop) :
    ∀ l : List α, (∀ a ∈ l, R a (f a)) → List.Forall₂ R l (l.map f) := by
  intro l
  induction l with
  | nil => intro _; exact List.Forall₂.nil
  | cons a l ih =>
    intro h
    exact List.Forall₂.cons (h a (List.mem_cons_self _ _))
      (ih (fun x hx => h x (List.mem_cons_of_mem _ hx)))

/-- Closed form of the reorder linking loop: each row is rewritten according
to the last pair naming its id (later indices win), untouched otherwise. -/
theorem linkOrdersAt_char (rid : Nat) :
    ∀ (ps : List (Nat × Nat)) (orders : List Order),
      linkOrdersAt orders rid ps = orders.map (fun o =>
        match ps.reverse.find? (fun pr => pr.2 = o.id) with
        | some pr => { o with routeId := some rid, routePosition := some pr.1 }
        | none => o) := by
  intro ps
  induction ps with
  | nil =>
    intro orders
    simp [linkOrdersAt]
  | cons q rest ih =>
    intro orders
    rcases q with ⟨pos, oid⟩
    rw [linkOrdersAt, ih, List.map_map]
    apply List.map_congr_left
    intro o _
    obtain ⟨oi, ost, orid, opos, ovd, opid, ouid, olat, olon, otap, oknd, orc, otws, otwe⟩ := o
    simp only [Function.comp_apply, List.reverse_cons]
    by_cases ho : oi = oid
    · simp only [linkAtRow, if_pos ho]
      cases hf : rest.reverse.find? (fun pr => pr.2 = oi) with
      | some pr =>
        rw [find?_append_left hf]
      | none =>
        rw [find?_append_none hf]
        rw [List.find?_cons_of_pos _ (by simpa using ho.symm)]
    · simp only [linkAtRow, if_neg ho]
      cases hf : rest.reverse.find? (fun pr => pr.2 = oi) with
      | some pr =>
        rw [find?_append_left hf]
      | none =>
        rw [find?_append_none hf]
        rw [List.find?_cons_of_neg _ (by simpa using fun h => ho h.symm)]
        rfl

/-- C10 (amended): a reorder call links each resolvable identifier at exactly
its index in the supplied (duplicate-free) list and fully unlinks the route's
other stops; identifiers that resolve to no stop are skipped without shifting
later positions, so gaps in the linked positions appear exactly when an
unresolvable identifier precedes a resolvable one (a trailing unresolvable
identifier leaves the positions contiguous — see the counterexample). -/
theorem C10_reorder_positions_by_index :
    ∀ (db : DB) (rid : Nat) (ids : List Nat) (db2 : DB),
      api_route_edit db rid ids = some db2 → ids.Nodup →
      List.Forall₂ (fun o o2 =>
        (∀ i, ∀ hi : i < ids.length, o.id = ids.get ⟨i, hi⟩ →
           o2 = { o with routeId := some rid, routePosition := some i }) ∧
        (o.id ∉ ids →
           o2 = if o.routeId = some rid
                then { o with routeId := none, routePosition := none } else o))
        db.orders db2.orders := by
  intro db rid ids db2 h hnd
  unfold api_route_edit at h
  cases hf : findRoute db rid with
  | none => rw [hf] at h; cases h
  | some route =>
    rw [hf] at h
    by_cases he : ids.isEmpty
    · rw [if_pos he] at h; cases h
    · rw [if_neg he] at h
      injection h with h2
      subst h2
      show List.Forall₂ _ db.orders (linkOrdersAt (db.orders.map (unlinkAndClearRow rid)) rid ids.enum)
      rw [linkOrdersAt_char, List.map_map]
      apply forall₂_map_self
      intro o _
      obtain ⟨oi, ost, orid, opos, ovd, opid, ouid, olat, olon, otap, oknd, orc, otws, otwe⟩ := o
      constructor
      · intro i hi hoi
        have hmem : (i, oi) ∈ ids.enum := by
          have hoi2 : oi = ids.get ⟨i, hi⟩ := hoi
          rw [List.mk_mem_enum_iff_getElem?, List.getElem?_eq_getElem hi]
          show some _ = some _
          rw [hoi2]
          simp [List.get_eq_getElem]
        by_cases hr : orid = some rid
        · simp only [Function.comp_apply, unlinkAndClearRow, if_pos hr]
          rw [find?_reverse_unique (nodup_enum_snd ids hnd) hmem]
        · simp only [Function.comp_apply, unlinkAndClearRow, if_neg hr]
          rw [find?_reverse_unique (nodup_enum_snd ids hnd) hmem]
      · intro ho
        have hnone : ids.enum.reverse.find? (fun pr => pr.2 = oi) = none := by
          rw [List.find?_eq_none]
          intro pr hpr hv
          apply ho
          have h2 : pr.2 ∈ ids.enum.map Prod.snd :=
            List.mem_map_of_mem _ (List.mem_reverse.mp hpr)
          rw [List.enum_eq_enumFrom, List.enumFrom_map_snd] at h2
          have hv2 : pr.2 = oi := by simpa using hv
          show oi ∈ ids
          rw [← hv2]
          exact h2
        by_cases hr : orid = some rid
        · simp only [Function.comp_apply, unlinkAndClearRow, if_pos hr]
          rw [hnone]
        · simp only [Function.comp_apply, unlinkAndClearRow, if_neg hr]
          rw [hnone]

/-- C10 counterexample: reordering route 4 (holding stop 1) with the list
`[1, 99]`, whose second identifier resolves to nothing, leaves the linked-stop
positions `[0]` — the contiguous range for the single linked stop — refuting
the claimed "gaps (not a contiguous 0..n-1 range)" for every list containing
unresolvable identifiers. -/
theorem C10_trailing_unresolvable_contiguous :
    (api_route_edit c10db 4 [1, 99]).map
        (fun d => (linkedOrders d 4).map (fun o => o.routePosition)) =
      some [some 0] := by
  decide

/-- C10 witness: the amended theorem applied to `c10db` with list `[1, 99]`
(the edit maps `c10db` to itself). -/
theorem C10_witness :
    List.Forall₂ (fun o o2 =>
      (∀ i, ∀ hi : i < ([1, 99] : List Nat).length, o.id = ([1, 99] : List Nat).get ⟨i, hi⟩ →
         o2 = { o with routeId := some 4, routePosition := some i }) ∧
      (o.id ∉ ([1, 99] : List Nat) →
         o2 = if o.routeId = some 4
              then { o with routeId := none, routePosition := none } else o))
      c10db.orders c10db.orders :=
  C10_reorder_positions_by_index c10db 4 [1, 99] c10db (by decide) (by decide)

end YoRote

namespace YoRote

/-- When the optimization endpoint answers `ok`, the response and the
committed database come from the group-loop accumulator. -/
theorem optimize_ok_inv (solver : Solver) (db : DB) (uid : Option Nat)
    (date : String) (ids : List Nat) (warns : List PlanError)
    (h : (api_routes_optimize solver db uid date).1 = OptResult.ok ids warns) :
    ids = (optimizeAcc solver db uid date).createdIds ∧
    warns = (optimizeAcc solver db uid date).errors ∧
    (api_routes_optimize solver db uid date).2 = (optimizeAcc solver db uid date).db := by
  unfold api_routes_optimize at h ⊢
  split at h
  · cases h
  · split at h
    · cases h
    · rename_i hc ho
      dsimp only at h ⊢
      rw [if_neg hc, if_neg ho]
      split at h
      · cases h
      · rename_i hcond
        rw [if_neg hcond]
        injection h with h1 h2
        subst h1
        subst h2
        exact ⟨rfl, rfl, rfl⟩

/-- One materialized assignment preserves the C4 invariant. -/
theorem processAssignments_nodup (date : String) (uid : Option Nat) :
    ∀ (as : List Assignment) (acc : PlanAcc), PlanNodupInv acc →
      (as.map (fun a => a.courierId)).Nodup →
      (∀ a ∈ as, a.courierId ∉ acc.usedCourierIds) →
      PlanNodupInv (processAssignments date uid acc as) := by
  intro as
  induction as with
  | nil => intro acc hI _ _; exact hI
  | cons a rest ih =>
    intro acc hI hnd hused
    obtain ⟨I1, I2, I3, I4⟩ := hI
    rw [processAssignments]
    rw [List.map_cons, List.nodup_cons] at hnd
    obtain ⟨hnda, hndrest⟩ := hnd
    apply ih
    · constructor
      · intro r hr
        rcases List.mem_append.mp hr with hold | hnew
        · exact Nat.lt_succ_of_lt (I1 r hold)
        · rw [List.mem_singleton] at hnew
          subst hnew
          exact Nat.lt_succ_self _
      constructor
      · intro i hi
        rcases List.mem_append.mp hi with hold | hnew
        · exact Nat.lt_succ_of_lt (I2 i hold)
        · rw [List.mem_singleton] at hnew
          subst hnew
          exact Nat.lt_succ_self _
      constructor
      · show (((acc.db.routes ++ [_]).filter _).map _).Nodup
        rw [List.filter_append]
        have hfeq : acc.db.routes.filter
              (fun r => r.id ∈ acc.createdIds ++ [acc.db.nextRouteId]) =
            acc.db.routes.filter (fun r => r.id ∈ acc.createdIds) := by
          apply List.filter_congr
          intro r hr
          have hlt := I1 r hr
          have hne : r.id ≠ acc.db.nextRouteId := Nat.ne_of_lt hlt
          simp [List.mem_append, hne]
        rw [hfeq]
        have hsingle : List.filter
            (fun r => r.id ∈ acc.createdIds ++ [acc.db.nextRouteId])
            [({ id := acc.db.nextRouteId, courierId := a.courierId, date := date,
                status := "active", geometry := a.geometry, userId := uid } : Route)] =
            [{ id := acc.db.nextRouteId, courierId := a.courierId, date := date,
               status := "active", geometry := a.geometry, userId := uid }] := by
          simp
        rw [hsingle, List.map_append]
        rw [List.nodup_append]
        refine ⟨I3, List.nodup_singleton _, ?_⟩
        intro y hy
        rcases List.mem_map.mp hy with ⟨r, hrmem, hry⟩
        have hidmem : r.id ∈ acc.createdIds := by
          have := List.mem_filter.mp hrmem
          simpa using this.2
        have hrused : r.courierId ∈ acc.usedCourierIds :=
          I4 r (List.mem_of_mem_filter hrmem) hidmem
        have hnotused : a.courierId ∉ acc.usedCourierIds :=
          hused a (List.mem_cons_self _ _)
        intro hyx
        simp only [List.map_cons, List.map_nil, List.mem_singleton] at hyx
        subst hyx
        exact hnotused (hry ▸ hrused)
      · intro r hr hid
        rcases List.mem_append.mp hr with hold | hnew
        · have hlt := I1 r hold
          have hne : r.id ≠ acc.db.nextRouteId := Nat.ne_of_lt hlt
          have hid2 : r.id ∈ acc.createdIds := by
            rcases List.mem_append.mp hid with h | h
            · exact h
            · rw [List.mem_singleton] at h; exact absurd h hne
          exact List.mem_append.mpr (Or.inl (I4 r hold hid2))
        · rw [List.mem_singleton] at hnew
          subst hnew
          exact List.mem_append.mpr (Or.inr (List.mem_singleton_self _))
    · exact hndrest
    · intro b hb
      have hb1 : b.courierId ∉ acc.usedCourierIds := hused b (List.mem_cons_of_mem _ hb)
      have hb2 : b.courierId ≠ a.courierId := by
        intro hx
        apply hnda
        rw [← hx]
        exact List.mem_map_of_mem _ hb
      intro hmem
      rcases List.mem_append.mp hmem with h | h
      · exact hb1 h
      · rw [List.mem_singleton] at h
        exact hb2 h

/-- One depot group preserves the C4 invariant under the solver contract. -/
theorem processGroup_nodup (solver : Solver) (couriers : List Courier)
    (dflt : Option Point) (date : String) (uid : Option Nat) (acc : PlanAcc)
    (k : Option Nat) (gos : List Order)
    (hsolver : SolverContract solver) (hI : PlanNodupInv acc) :
    PlanNodupInv (processGroup solver couriers dflt date uid acc k gos) := by
  unfold processGroup
  cases hd : groupDepot acc.db dflt k with
  | none => exact hI
  | some depot =>
    dsimp only
    split
    · exact hI
    · cases hs : solver gos
        (couriers.filter (fun c => !(acc.usedCourierIds.contains c.id))) depot with
      | none => exact hI
      | some routesData =>
        dsimp only
        split
        · exact hI
        · obtain ⟨hnd, hsub⟩ := hsolver _ _ _ _ hs
          apply processAssignments_nodup date uid routesData acc hI hnd
          intro a ha
          have hmem := hsub a ha
          rcases List.mem_map.mp hmem with ⟨c, hcmem, hcid⟩
          rcases List.mem_filter.mp hcmem with ⟨-, hcpass⟩
          intro hcontra
          rw [← hcid] at hcontra
          have : acc.usedCourierIds.contains c.id = true := by
            exact List.elem_iff.mpr hcontra
          rw [this] at hcpass
          cases hcpass

/-- The depot-group loop preserves the C4 invariant. -/
theorem processGroups_nodup (solver : Solver) (db0 : DB)
    (couriers : List Courier) (dflt : Option Point) (snapshot : List Order)
    (date : String) (uid : Option Nat) (hsolver : SolverContract solver) :
    ∀ (keys : List (Option Nat)) (acc : PlanAcc), PlanNodupInv acc →
      PlanNodupInv (processGroups solver db0 couriers dflt snapshot date uid acc keys) := by
  intro keys
  induction keys with
  | nil => intro acc hI; exact hI
  | cons k rest ih =>
    intro acc hI
    rw [processGroups]
    exact ih _ (processGroup_nodup solver couriers dflt date uid acc k _ hsolver hI)

theorem exSolver_contract : SolverContract exSolver := by
  intro os cs dep res h
  cases cs with
  | nil =>
    injection h with h2
    subst h2
    exact ⟨List.nodup_nil, by intro a ha; cases ha⟩
  | cons c rest =>
    injection h with h2
    subst h2
    constructor
    · simp
    · intro a ha
      simp only [List.mem_singleton] at ha
      subst ha
      simp

/-- C4: within one `api_routes_optimize` invocation, no courier owns two of
the created routes, for any solver satisfying the backend contract (one route
per vehicle, vehicles drawn from the available pool) and any database whose
route ids are below the id counter. -/
theorem C4_no_vehicle_double_booked :
    ∀ (solver : Solver) (db : DB) (uid : Option Nat) (date : String),
      SolverContract solver →
      (∀ r ∈ db.routes, r.id < db.nextRouteId) →
      ∀ ids warns, (api_routes_optimize solver db uid date).1 = OptResult.ok ids warns →
        (((api_routes_optimize solver db uid date).2.routes.filter
            (fun r => r.id ∈ ids)).map (fun r => r.courierId)).Nodup := by
  intro solver db uid date hsolver hfresh ids warns h
  obtain ⟨h1, h2, h3⟩ := optimize_ok_inv solver db uid date ids warns h
  rw [h3, h1]
  have hI0 : PlanNodupInv { db := db, createdIds := [], errors := [], usedCourierIds := [] } := by
    refine ⟨hfresh, ?_, ?_, ?_⟩
    · intro i hi
      cases hi
    · show ((db.routes.filter (fun r => r.id ∈ ([] : List Nat))).map
          (fun r => r.courierId)).Nodup
      have hnil : db.routes.filter (fun r => r.id ∈ ([] : List Nat)) = [] := by
        rw [List.filter_eq_nil_iff]
        intro a _
        simp
      rw [hnil]
      exact List.nodup_nil
    · intro r _ hid
      cases hid
  have hfin := processGroups_nodup solver db (scopedCouriers db uid)
    (defaultPointFor db uid) (plannedFreeOrders db uid date) date uid hsolver
    (groupKeysOf db (plannedFreeOrders db uid date)) _ hI0
  exact hfin.2.2.1

/-- C4 witness: the two-depot, one-courier fixture creates exactly route 100
with distinct (single) owner. -/
theorem C4_witness :
    (((api_routes_optimize exSolver c4db none "d").2.routes.filter
        (fun r => r.id ∈ [100])).map (fun r => r.courierId)).Nodup :=
  C4_no_vehicle_double_booked exSolver c4db none "d" exSolver_contract (by decide)
    [100] [PlanError.noCouriers (some 2) 1] (by decide)

end YoRote

namespace YoRote

/-- Linking a row during planning keeps it plan-touched. -/
theorem planTouched_step (n0 rid oid : Nat) (hr : n0 ≤ rid) (o o2 : Order)
    (h : PlanTouched n0 o o2) : PlanTouched n0 o (planAssignRow rid oid o2) := by
  unfold planAssignRow
  by_cases hx : o2.id = oid
  · rw [if_pos hx]
    rcases h with rfl | ⟨r1, hr1, rfl⟩
    · exact Or.inr ⟨rid, hr, rfl⟩
    · exact Or.inr ⟨rid, hr, rfl⟩
  · rw [if_neg hx]
    exact h

/-- Mapping the right side of a pointwise relation by a relation-preserving
function keeps the relation. -/
theorem forall₂_map_right_mono {α β : Type} (R : α → β → Prop) (f : β → β)
    (hf : ∀ a b, R a b → R a (f b)) :
    ∀ {l : List α} {m : List β}, List.Forall₂ R l m → List.Forall₂ R l (m.map f) := by
  intro l m h
  induction h with
  | nil => exact List.Forall₂.nil
  | cons hab _ ih => exact List.Forall₂.cons (hf _ _ hab) ih

/-- The order-linking loop of planning keeps every row plan-touched. -/
theorem assignOrders_touched (n0 rid : Nat) (hr : n0 ≤ rid) :
    ∀ (oids : List Nat) (orig orders : List Order),
      List.Forall₂ (PlanTouched n0) orig orders →
      List.Forall₂ (PlanTouched n0) orig (assignOrders orders rid oids) := by
  intro oids
  induction oids with
  | nil => intro orig orders h; exact h
  | cons oid rest ih =>
    intro orig orders h
    rw [assignOrders]
    exact ih _ _ (forall₂_map_right_mono _ _ (planTouched_step n0 rid oid hr) h)

/-- Materializing assignments preserves the C3 invariant. -/
theorem processAssignments_touched (date : String) (uid : Option Nat) :
    ∀ (as : List Assignment) (n0 : Nat) (orig : List Order) (acc : PlanAcc),
      PlanOrdersInv n0 orig acc →
      PlanOrdersInv n0 orig (processAssignments date uid acc as) := by
  intro as
  induction as with
  | nil => intro n0 orig acc h; exact h
  | cons a rest ih =>
    intro n0 orig acc h
    obtain ⟨J1, J2, J3⟩ := h
    rw [processAssignments]
    apply ih
    refine ⟨?_, ?_, ?_⟩
    · exact assignOrders_touched n0 acc.db.nextRouteId J2 a.orderIds orig acc.db.orders J1
    · exact Nat.le_succ_of_le J2
    · intro i hi
      rcases List.mem_append.mp hi with hold | hnew
      · exact J3 i hold
      · rw [List.mem_singleton] at hnew
        subst hnew
        exact J2

/-- One depot group preserves the C3 invariant. -/
theorem processGroup_touched (solver : Solver) (couriers : List Courier)
    (dflt : Option Point) (date : String) (uid : Option Nat) (acc : PlanAcc)
    (k : Option Nat) (gos : List Order) (n0 : Nat) (orig : List Order)
    (hI : PlanOrdersInv n0 orig acc) :
    PlanOrdersInv n0 orig (processGroup solver couriers dflt date uid acc k gos) := by
  unfold processGroup
  cases hd : groupDepot acc.db dflt k with
  | none => exact hI
  | some depot =>
    dsimp only
    split
    · exact hI
    · cases hs : solver gos
        (couriers.filter (fun c => !(acc.usedCourierIds.contains c.id))) depot with
      | none => exact hI
      | some routesData =>
        dsimp only
        split
        · exact hI
        · exact processAssignments_touched date uid routesData n0 orig acc hI

/-- The depot-group loop preserves the C3 invariant. -/
theorem processGroups_touched (solver : Solver) (db0 : DB)
    (couriers : List Courier) (dflt : Option Point) (snapshot : List Order)
    (date : String) (uid : Option Nat) (n0 : Nat) (orig : List Order) :
    ∀ (keys : List (Option Nat)) (acc : PlanAcc), PlanOrdersInv n0 orig acc →
      PlanOrdersInv n0 orig
        (processGroups solver db0 couriers dflt snapshot date uid acc keys) := by
  intro keys
  induction keys with
  | nil => intro acc hI; exact hI
  | cons k rest ih =>
    intro acc hI
    rw [processGroups]
    exact ih _ (processGroup_touched solver couriers dflt date uid acc k _ n0 orig hI)

/-- Plan-touched rows keep their id and route position. -/
theorem touched_map_id_pos (n0 : Nat) :
    ∀ {l m : List Order}, List.Forall₂ (PlanTouched n0) l m →
      m.map (fun o => (o.id, o.routePosition)) = l.map (fun o => (o.id, o.routePosition)) := by
  intro l m h
  induction h with
  | nil => rfl
  | cons hab _ ih =>
    rcases hab with rfl | ⟨r1, -, rfl⟩
    · rw [List.map_cons, List.map_cons, ih]
    · rw [List.map_cons, List.map_cons, ih]

/-- C3 (amended): planning links each solver-returned stop to its created
route and (re)sets its status to planned, but it never assigns route
positions: after any successful `api_routes_optimize` the `(id, position)`
column of the order table is exactly what it was before, and every stop
linked to a created route has status planned.  (The claimed contiguous
0..n-1 positions are therefore not established — see the counterexample.) -/
theorem C3_planning_assigns_no_positions :
    ∀ (solver : Solver) (db : DB) (uid : Option Nat) (date : String),
      (∀ o ∈ db.orders, ∀ c, o.routeId = some c → c < db.nextRouteId) →
      ∀ ids warns, (api_routes_optimize solver db uid date).1 = OptResult.ok ids warns →
        ((api_routes_optimize solver db uid date).2.orders.map
            (fun o => (o.id, o.routePosition)) =
          db.orders.map (fun o => (o.id, o.routePosition))) ∧
        ∀ o2 ∈ (api_routes_optimize solver db uid date).2.orders,
          ∀ c, o2.routeId = some c → c ∈ ids → o2.status = "planned" := by
  intro solver db uid date hfresh ids warns h
  obtain ⟨h1, h2, h3⟩ := optimize_ok_inv solver db uid date ids warns h
  have hI0 : PlanOrdersInv db.nextRouteId db.orders
      { db := db, createdIds := [], errors := [], usedCourierIds := [] } := by
    refine ⟨?_, Nat.le_refl _, ?_⟩
    · exact List.forall₂_same.mpr (fun o _ => Or.inl rfl)
    · intro i hi
      cases hi
  have hfin := processGroups_touched solver db (scopedCouriers db uid)
    (defaultPointFor db uid) (plannedFreeOrders db uid date) date uid
    db.nextRouteId db.orders
    (groupKeysOf db (plannedFreeOrders db uid date)) _ hI0
  obtain ⟨J1, J2, J3⟩ := hfin
  constructor
  · rw [h3]
    exact touched_map_id_pos db.nextRouteId J1
  · intro o2 hmem c hc hcin
    rw [h3] at hmem
    obtain ⟨o, homem, htouched⟩ := forall₂_mem_right J1 o2 hmem
    rcases htouched with rfl | ⟨r1, hr1, rfl⟩
    · exfalso
      have hlt := hfresh o2 homem c hc
      have hge : db.nextRouteId ≤ c := by
        apply J3
        rw [h1] at hcin
        exact hcin
      omega
    · rfl

/-- C3 counterexample: the fixture run creates route 100 and links stop 1 to
it, but the stop's `route_position` stays `NULL` — not the claimed index 0 of
a contiguous 0..n-1 assignment. -/
theorem C3_no_position_written :
    (api_routes_optimize exSolver c4db none "d").1 =
      OptResult.ok [100] [PlanError.noCouriers (some 2) 1] ∧
    (api_routes_optimize exSolver c4db none "d").2.orders.map
        (fun o => (o.routeId, o.routePosition, o.status)) =
      [(some 100, none, "planned"), (none, none, "planned")] := by
  decide

/-- C3 witness: the amended theorem applied to the fixture run. -/
theorem C3_witness :
    ((api_routes_optimize exSolver c4db none "d").2.orders.map
        (fun o => (o.id, o.routePosition)) =
      c4db.orders.map (fun o => (o.id, o.routePosition))) ∧
    ∀ o2 ∈ (api_routes_optimize exSolver c4db none "d").2.orders,
      ∀ c, o2.routeId = some c → c ∈ [100] → o2.status = "planned" :=
  C3_planning_assigns_no_positions exSolver c4db none "d" (by decide)
    [100] [PlanError.noCouriers (some 2) 1] (by decide)

end YoRote

namespace YoRote

/-- Materializing assignments creates one route per assignment and records no
errors. -/
theorem processAssignments_counts (date : String) (uid : Option Nat) :
    ∀ (as : List Assignment) (acc : PlanAcc),
      (processAssignments date uid acc as).createdIds.length =
          acc.createdIds.length + as.length ∧
      (processAssignments date uid acc as).errors = acc.errors := by
  intro as
  induction as with
  | nil => intro acc; exact ⟨rfl, rfl⟩
  | cons a rest ih =>
    intro acc
    rw [processAssignments]
    obtain ⟨hlen, herr⟩ := ih _
    constructor
    · rw [hlen]
      simp
      omega
    · exact herr

/-- One depot group either records exactly one error and changes nothing else,
or creates at least one route and records no error. -/
theorem processGroup_cases (solver : Solver) (couriers : List Courier)
    (dflt : Option Point) (date : String) (uid : Option Nat) (acc : PlanAcc)
    (k : Option Nat) (gos : List Order) :
    ((processGroup solver couriers dflt date uid acc k gos).db = acc.db ∧
     (processGroup solver couriers dflt date uid acc k gos).createdIds = acc.createdIds ∧
     ∃ e, (processGroup solver couriers dflt date uid acc k gos).errors = acc.errors ++ [e]) ∨
    ((processGroup solver couriers dflt date uid acc k gos).createdIds.length >
        acc.createdIds.length ∧
     (processGroup solver couriers dflt date uid acc k gos).errors = acc.errors) := by
  unfold processGroup
  cases hd : groupDepot acc.db dflt k with
  | none => exact Or.inl ⟨rfl, rfl, _, rfl⟩
  | some depot =>
    dsimp only
    split
    · exact Or.inl ⟨rfl, rfl, _, rfl⟩
    · cases hs : solver gos
        (couriers.filter (fun c => !(acc.usedCourierIds.contains c.id))) depot with
      | none => exact Or.inl ⟨rfl, rfl, _, rfl⟩
      | some routesData =>
        dsimp only
        split
        · exact Or.inl ⟨rfl, rfl, _, rfl⟩
        · right
          obtain ⟨hlen, herr⟩ := processAssignments_counts date uid routesData acc
          refine ⟨?_, herr⟩
          rw [hlen]
          rename_i hne
          have : routesData ≠ [] := by
            intro hx
            rw [hx] at hne
            exact hne rfl
          have : 0 < routesData.length := List.length_pos.mpr this
          omega

/-- The group loop never loses created routes; when it creates none, it leaves
the database untouched and records exactly one error per group. -/
theorem processGroups_progress (solver : Solver) (db0 : DB)
    (couriers : List Courier) (dflt : Option Point) (snapshot : List Order)
    (date : String) (uid : Option Nat) :
    ∀ (keys : List (Option Nat)) (acc : PlanAcc),
      acc.createdIds.length ≤
        (processGroups solver db0 couriers dflt snapshot date uid acc keys).createdIds.length ∧
      ((processGroups solver db0 couriers dflt snapshot date uid acc keys).createdIds.length =
          acc.createdIds.length →
        (processGroups solver db0 couriers dflt snapshot date uid acc keys).db = acc.db ∧
        (processGroups solver db0 couriers dflt snapshot date uid acc keys).errors.length =
          acc.errors.length + keys.length) := by
  intro keys
  induction keys with
  | nil =>
    intro acc
    exact ⟨Nat.le_refl _, fun _ => ⟨rfl, by simp [processGroups]⟩⟩
  | cons k rest ih =>
    intro acc
    rw [processGroups]
    obtain ⟨hle, himp⟩ := ih (processGroup solver couriers dflt date uid acc k
      (snapshot.filter (fun o => pointKeyOf db0 o = k)))
    rcases processGroup_cases solver couriers dflt date uid acc k
      (snapshot.filter (fun o => pointKeyOf db0 o = k)) with
      ⟨hdb, hcr, e, herr⟩ | ⟨hgt, herr⟩
    · constructor
      · rw [hcr] at hle
        exact hle
      · intro heq
        have heq1 : (processGroups solver db0 couriers dflt snapshot date uid
            (processGroup solver couriers dflt date uid acc k
              (snapshot.filter (fun o => pointKeyOf db0 o = k))) rest).createdIds.length =
            (processGroup solver couriers dflt date uid acc k
              (snapshot.filter (fun o => pointKeyOf db0 o = k))).createdIds.length := by
          rw [hcr]
          exact heq
        obtain ⟨hdb2, herr2⟩ := himp heq1
        refine ⟨by rw [hdb2, hdb], ?_⟩
        rw [herr2, herr]
        simp
        omega
    · constructor
      · omega
      · intro heq
        omega

/-- A nonempty order list yields a nonempty group-key list. -/
theorem groupKeysOf_ne_nil (db : DB) :
    ∀ orders : List Order, orders ≠ [] → groupKeysOf db orders ≠ [] := by
  have hfold : ∀ (l : List Order) (ks : List (Option Nat)), ks ≠ [] →
      l.foldl (fun ks o =>
        let k := pointKeyOf db o; if k ∈ ks then ks else ks ++ [k]) ks ≠ [] := by
    intro l
    induction l with
    | nil => intro ks h; exact h
    | cons o rest ih =>
      intro ks h
      rw [List.foldl_cons]
      apply ih
      dsimp only
      split
      · exact h
      · intro hx
        have := List.append_ne_nil_of_right_ne_nil ks (by simp : [pointKeyOf db o] ≠ [])
        exact this hx
  intro orders h
  cases orders with
  | nil => exact absurd rfl h
  | cons o rest =>
    unfold groupKeysOf
    rw [List.foldl_cons]
    apply hfold
    dsimp only
    split
    · rename_i hmem
      cases hmem
    · simp

/-- C5: a planning call with no couriers in scope fails immediately and
changes nothing; a call that creates zero routes answers with the single
aggregated failure carrying at least one per-group reason and leaves the
database unchanged; a call that answers success created at least one route
(per-group failures ride along as warnings), so one failed depot group never
aborts the others. -/
theorem C5_zero_vs_partial_aggregation :
    ∀ (solver : Solver) (db : DB) (uid : Option Nat) (date : String),
      (scopedCouriers db uid = [] →
        api_routes_optimize solver db uid date = (OptResult.errNoCouriers, db)) ∧
      (∀ errs, (api_routes_optimize solver db uid date).1 = OptResult.errAllFailed errs →
        errs ≠ [] ∧ (api_routes_optimize solver db uid date).2 = db) ∧
      (∀ ids warns, (api_routes_optimize solver db uid date).1 = OptResult.ok ids warns →
        ids ≠ []) := by
  intro solver db uid date
  have hacc : optimizeAcc solver db uid date =
      processGroups solver db (scopedCouriers db uid) (defaultPointFor db uid)
        (plannedFreeOrders db uid date) date uid
        { db := db, createdIds := [], errors := [], usedCourierIds := [] }
        (groupKeysOf db (plannedFreeOrders db uid date)) := rfl
  have hprog := processGroups_progress solver db (scopedCouriers db uid)
    (defaultPointFor db uid) (plannedFreeOrders db uid date) date uid
    (groupKeysOf db (plannedFreeOrders db uid date))
    { db := db, createdIds := [], errors := [], usedCourierIds := [] }
  rw [← hacc] at hprog
  obtain ⟨-, himp⟩ := hprog
  refine ⟨?_, ?_, ?_⟩
  · intro h
    unfold api_routes_optimize
    rw [if_pos (by rw [h]; rfl)]
  · intro errs h
    unfold api_routes_optimize at h ⊢
    split at h
    · cases h
    · split at h
      · cases h
      · rename_i hc ho
        dsimp only at h ⊢
        rw [if_neg hc, if_neg ho]
        split at h
        · rename_i hcond
          rw [if_pos hcond]
          injection h with h1
          subst h1
          rw [Bool.and_eq_true] at hcond
          obtain ⟨hcre, herr⟩ := hcond
          constructor
          · intro hx
            rw [hx] at herr
            simp at herr
          · show (optimizeAcc solver db uid date).db = db
            have hlen : (optimizeAcc solver db uid date).createdIds.length = 0 := by
              have hnil : (optimizeAcc solver db uid date).createdIds = [] :=
                List.isEmpty_iff.mp hcre
              rw [hnil]
              rfl
            exact (himp hlen).1
        · cases h
  · intro ids warns h
    unfold api_routes_optimize at h
    split at h
    · cases h
    · split at h
      · cases h
      · rename_i hc ho
        dsimp only at h
        split at h
        · cases h
        · rename_i hcond
          injection h with h1 h2
          subst h1
          intro hx
          have hcre : (optimizeAcc solver db uid date).createdIds.isEmpty = true := by
            rw [hx]
            rfl
          have herrs : (optimizeAcc solver db uid date).errors.isEmpty = true := by
            by_contra hbad
            apply hcond
            rw [Bool.and_eq_true]
            refine ⟨hcre, ?_⟩
            rw [Bool.not_eq_true] at hbad
            rw [hbad]
            rfl
          have hlen : (optimizeAcc solver db uid date).createdIds.length = 0 := by
            rw [List.isEmpty_iff.mp hcre]
            rfl
          have herr0 : (optimizeAcc solver db uid date).errors.length = 0 := by
            rw [List.isEmpty_iff.mp herrs]
            rfl
          have hkeys := (himp hlen).2
          rw [herr0] at hkeys
          have hknil : groupKeysOf db (plannedFreeOrders db uid date) = [] := by
            have : (groupKeysOf db (plannedFreeOrders db uid date)).length = 0 := by
              omega
            exact List.length_eq_zero.mp this
          have hone : plannedFreeOrders db uid date ≠ [] := by
            intro hz
            apply ho
            rw [hz]
            rfl
          exact groupKeysOf_ne_nil db (plannedFreeOrders db uid date) hone hknil

/-- C5 witness: with no couriers the call fails with the no-couriers message
and an unchanged database; the two-depot fixture partially succeeds with a
nonempty created list. -/
theorem C5_witness :
    api_routes_optimize exSolver c5db none "d" = (OptResult.errNoCouriers, c5db) ∧
    ([100] : List Nat) ≠ [] :=
  ⟨(C5_zero_vs_partial_aggregation exSolver c5db none "d").1 rfl,
   (C5_zero_vs_partial_aggregation exSolver c4db none "d").2.2 [100]
     [PlanError.noCouriers (some 2) 1] (by decide)⟩

end YoRote

namespace YoRote

/-- A produced ORS time-window list always holds exactly one window. -/
theorem get_time_windows_length (base : Int) (o : Order) (tw : List (Int × Int))
    (h : get_time_windows base o = some tw) : tw.length = 1 := by
  unfold get_time_windows at h
  dsimp only at h
  repeat' split at h
  all_goals
    first
      | (injection h with h1
         subst h1
         rfl)
      | cases h

/-- C7 (amended): in the ORS problem builder every job carries exactly one
time window, and a stop that declares no window gets the default 09:00–18:00
shift window (09:00 is 32400 s, 18:00 is 64800 s past the anchor midnight).
In the 2GIS builder, by contrast, a stop that declares no window yields a
waypoint carrying no time window at all — there is no default — and each
order's waypoint is part of the built problem. -/
theorem C7_window_defaults :
    (∀ (base : Int) (orders : List Order) (js : List Job),
       buildJobs base orders = some js → ∀ j ∈ js, j.timeWindows.length = 1) ∧
    (∀ (base : Int) (o : Order),
       strTruthy o.timeWindowStart = false ∨ strTruthy o.timeWindowEnd = false →
       get_time_windows base o = some [(base + 32400, base + 64800)]) ∧
    (∀ o : Order,
       strTruthy o.timeWindowStart = false ∨ strTruthy o.timeWindowEnd = false →
       (orderWaypoint o).timeWindows = none) ∧
    (∀ (orders : List Order) (depot : ℚ × ℚ) (o : Order), o ∈ orders →
       orderWaypoint o ∈ _build_waypoints orders depot) := by
  have hgw : ∀ o : Order,
      strTruthy o.timeWindowStart = false ∨ strTruthy o.timeWindowEnd = false →
      _get_time_windows o = none := by
    intro o hfalsy
    unfold _get_time_windows
    cases hs : o.timeWindowStart with
    | none => rfl
    | some a =>
      cases he : o.timeWindowEnd with
      | none => rfl
      | some b =>
        dsimp only
        rcases hfalsy with hf | hf
        · rw [hs] at hf
          unfold strTruthy at hf
          have ha : a = "" := by simpa using hf
          rw [if_neg]
          intro hcon
          exact hcon.1 ha
        · rw [he] at hf
          unfold strTruthy at hf
          have hb : b = "" := by simpa using hf
          rw [if_neg]
          intro hcon
          exact hcon.2 hb
  refine ⟨?_, ?_, ?_, ?_⟩
  · intro base orders
    induction orders with
    | nil =>
      intro js h j hj
      injection h with h1
      subst h1
      cases hj
    | cons o rest ih =>
      intro js h j hj
      rw [buildJobs] at h
      split at h
      · cases htw : get_time_windows base o with
        | none => rw [htw] at h; cases h
        | some tw =>
          rw [htw] at h
          cases hrest : buildJobs base rest with
          | none => rw [hrest] at h; cases h
          | some js2 =>
            rw [hrest] at h
            injection h with h1
            subst h1
            rcases List.mem_cons.mp hj with rfl | hj2
            · exact get_time_windows_length base o tw htw
            · exact ih js2 hrest j hj2
      · exact ih js h j hj
  · intro base o hfalsy
    unfold get_time_windows
    have hstrs : (match o.timeWindowStart, o.timeWindowEnd with
        | some a, some b => if a ≠ "" ∧ b ≠ "" then some (a, b) else none
        | _, _ => none) = (none : Option (String × String)) := by
      cases hs : o.timeWindowStart with
      | none => cases o.timeWindowEnd <;> rfl
      | some a =>
        cases he : o.timeWindowEnd with
        | none => rfl
        | some b =>
          dsimp only
          rcases hfalsy with hf | hf
          · rw [hs] at hf
            unfold strTruthy at hf
            have ha : a = "" := by simpa using hf
            rw [if_neg]
            intro hcon
            exact hcon.1 ha
          · rw [he] at hf
            unfold strTruthy at hf
            have hb : b = "" := by simpa using hf
            rw [if_neg]
            intro hcon
            exact hcon.2 hb
    rw [hstrs]
    dsimp only
    norm_num
  · intro o hfalsy
    show _get_time_windows o = none
    exact hgw o hfalsy
  · intro orders depot o ho
    unfold _build_waypoints
    exact List.mem_cons_of_mem _ (List.mem_map_of_mem _ ho)

/-- C7 counterexample: the 2GIS problem built for the windowless stop carries
no time window on the stop's waypoint (only the depot and the stop, both
`none`), while the ORS builder gives the very same stop the default
09:00–18:00 window — refuting "every stop in the submitted problem always
carries a window" for the 2GIS backend. -/
theorem C7_no_window_in_2gis_problem :
    (_build_waypoints [c7stop] (55, 37)).map (fun w => (w.waypointId, w.timeWindows)) =
      [(0, none), (1, none)] ∧
    get_time_windows 0 c7stop = some [(32400, 64800)] := by
  constructor
  · decide
  · decide

/-- C7 witness: the amended theorem applied to the windowless stop. -/
theorem C7_witness :
    get_time_windows 0 c7stop = some [((0 : Int) + 32400, (0 : Int) + 64800)] ∧
    (orderWaypoint c7stop).timeWindows = none :=
  ⟨C7_window_defaults.2.1 0 c7stop (Or.inl (by decide)),
   C7_window_defaults.2.2.1 c7stop (Or.inl (by decide))⟩

end YoRote

namespace YoRote

/-- The poll loop sleeps at most its remaining budget times the interval. -/
theorem pollLoop_sleep_bound {σ : Type} (resp : Nat → PollResponse)
    (fetch : String → Option σ) :
    ∀ (rem i slept : Nat),
      (pollLoop resp fetch i rem slept).2 ≤ slept + rem * POLL_INTERVAL_SECONDS := by
  intro rem
  induction rem with
  | zero =>
    intro i slept
    simp [pollLoop]
  | succ rem ih =>
    intro i slept
    rw [pollLoop]
    cases resp i with
    | httpError =>
      dsimp only
      refine Nat.le_trans (ih (i+1) (slept + POLL_INTERVAL_SECONDS)) ?_
      simp only [POLL_INTERVAL_SECONDS]
      omega
    | ok st url =>
      dsimp only
      by_cases h1 : st = "Done"
      · rw [if_pos h1]
        cases url with
        | some u => exact Nat.le_add_right _ _
        | none => exact Nat.le_add_right _ _
      · rw [if_neg h1]
        by_cases h2 : st = "Partial"
        · rw [if_pos h2]
          cases url with
          | some u => exact Nat.le_add_right _ _
          | none => exact Nat.le_add_right _ _
        · rw [if_neg h2]
          by_cases h3 : st = "Fail"
          · rw [if_pos h3]
            exact Nat.le_add_right _ _
          · rw [if_neg h3]
            refine Nat.le_trans (ih (i+1) (slept + POLL_INTERVAL_SECONDS)) ?_
            simp only [POLL_INTERVAL_SECONDS]
            omega

/-- A non-terminal response costs one attempt and one sleep. -/
theorem pollLoop_step_nonterminal {σ : Type} (resp : Nat → PollResponse)
    (fetch : String → Option σ) (i rem slept : Nat)
    (h : nonTerminalResp (resp i) = true) :
    pollLoop resp fetch i (rem+1) slept =
      pollLoop resp fetch (i+1) rem (slept + POLL_INTERVAL_SECONDS) := by
  rw [pollLoop]
  cases hr : resp i with
  | httpError => rfl
  | ok st url =>
    dsimp only
    rw [hr] at h
    unfold nonTerminalResp at h
    rw [Bool.and_eq_true, Bool.and_eq_true] at h
    obtain ⟨⟨h1, h2⟩, h3⟩ := h
    rw [if_neg (by simpa using h1), if_neg (by simpa using h2), if_neg (by simpa using h3)]

/-- Skipping a non-terminal prefix of `k` responses. -/
theorem pollLoop_skip {σ : Type} (resp : Nat → PollResponse)
    (fetch : String → Option σ) :
    ∀ (k i rem slept : Nat),
      (∀ j, i ≤ j → j < i + k → nonTerminalResp (resp j) = true) →
      pollLoop resp fetch i (rem + k) slept =
        pollLoop resp fetch (i + k) rem (slept + k * POLL_INTERVAL_SECONDS) := by
  intro k
  induction k with
  | zero =>
    intro i rem slept _
    simp
  | succ k ih =>
    intro i rem slept h
    have hone : rem + (k+1) = (rem + k) + 1 := by omega
    rw [hone, pollLoop_step_nonterminal resp fetch i (rem+k) slept
      (h i (Nat.le_refl _) (by omega))]
    rw [ih (i+1) rem (slept + POLL_INTERVAL_SECONDS)
      (fun j hj1 hj2 => h j (by omega) (by omega))]
    rw [show i + 1 + k = i + (k + 1) by omega]
    rw [show slept + POLL_INTERVAL_SECONDS + k * POLL_INTERVAL_SECONDS =
      slept + (k + 1) * POLL_INTERVAL_SECONDS by simp only [POLL_INTERVAL_SECONDS]; omega]

/-- A Done or Partial response with a solution url returns the fetched
solution at once. -/
theorem pollLoop_done_or_partial {σ : Type} (resp : Nat → PollResponse)
    (fetch : String → Option σ) (i rem slept : Nat) (u : String) (st : String)
    (hst : st = "Done" ∨ st = "Partial")
    (h : resp i = PollResponse.ok st (some u)) :
    pollLoop resp fetch i (rem+1) slept = (fetch u, slept) := by
  rw [pollLoop, h]
  dsimp only
  rcases hst with rfl | rfl
  · rw [if_pos rfl]
  · rw [if_neg (by decide), if_pos rfl]

/-- A Fail response returns the failure at once. -/
theorem pollLoop_fail {σ : Type} (resp : Nat → PollResponse)
    (fetch : String → Option σ) (i rem slept : Nat) (url : Option String)
    (h : resp i = PollResponse.ok "Fail" url) :
    pollLoop resp fetch i (rem+1) slept = (none, slept) := by
  rw [pollLoop, h]
  dsimp only
  rw [if_neg (by decide), if_neg (by decide), if_pos rfl]

/-- C9: the polling adapter's budget is 60 attempts at a 2-second interval and
the loop always terminates within it: total sleep is at most
`60 * 2` seconds; when the first terminal report (after a streak of
non-terminal ones) is `Done` or `Partial` with a solution url, the fetched
solution is returned (so the usable subset is still returned on exclusions);
a `Fail` report or an exhausted budget yields failure. -/
theorem C9_poll_bounded_terminating :
    MAX_POLL_ATTEMPTS = 60 ∧ POLL_INTERVAL_SECONDS = 2 ∧
    (∀ (σ : Type) (resp : Nat → PollResponse) (fetch : String → Option σ),
       (_poll_vrp_status resp fetch).2 ≤ MAX_POLL_ATTEMPTS * POLL_INTERVAL_SECONDS) ∧
    (∀ (σ : Type) (resp : Nat → PollResponse) (fetch : String → Option σ)
       (i : Nat) (st : String) (u : String),
       i < MAX_POLL_ATTEMPTS → (∀ j, j < i → nonTerminalResp (resp j) = true) →
       st = "Done" ∨ st = "Partial" → resp i = PollResponse.ok st (some u) →
       _poll_vrp_status resp fetch = (fetch u, i * POLL_INTERVAL_SECONDS)) ∧
    (∀ (σ : Type) (resp : Nat → PollResponse) (fetch : String → Option σ)
       (i : Nat) (url : Option String),
       i < MAX_POLL_ATTEMPTS → (∀ j, j < i → nonTerminalResp (resp j) = true) →
       resp i = PollResponse.ok "Fail" url →
       _poll_vrp_status resp fetch = ((none : Option σ), i * POLL_INTERVAL_SECONDS)) ∧
    (∀ (σ : Type) (resp : Nat → PollResponse) (fetch : String → Option σ),
       (∀ j, j < MAX_POLL_ATTEMPTS → nonTerminalResp (resp j) = true) →
       _poll_vrp_status resp fetch =
         ((none : Option σ), MAX_POLL_ATTEMPTS * POLL_INTERVAL_SECONDS)) := by
  refine ⟨rfl, rfl, ?_, ?_, ?_, ?_⟩
  · intro σ resp fetch
    have := pollLoop_sleep_bound resp fetch MAX_POLL_ATTEMPTS 0 0
    simpa using this
  · intro σ resp fetch i st u hi hpre hst hterm
    unfold _poll_vrp_status
    obtain ⟨m, hm⟩ : ∃ m, MAX_POLL_ATTEMPTS - i = m + 1 :=
      ⟨MAX_POLL_ATTEMPTS - i - 1, by omega⟩
    have hsplit : MAX_POLL_ATTEMPTS = (m + 1) + i := by omega
    rw [hsplit, pollLoop_skip resp fetch i 0 (m+1) 0
      (fun j hj1 hj2 => hpre j (by omega))]
    rw [show (0 : Nat) + i = i by omega, show (0 : Nat) + i * POLL_INTERVAL_SECONDS =
      i * POLL_INTERVAL_SECONDS by omega]
    exact pollLoop_done_or_partial resp fetch i m (i * POLL_INTERVAL_SECONDS) u st hst hterm
  · intro σ resp fetch i url hi hpre hterm
    unfold _poll_vrp_status
    obtain ⟨m, hm⟩ : ∃ m, MAX_POLL_ATTEMPTS - i = m + 1 :=
      ⟨MAX_POLL_ATTEMPTS - i - 1, by omega⟩
    have hsplit : MAX_POLL_ATTEMPTS = (m + 1) + i := by omega
    rw [hsplit, pollLoop_skip resp fetch i 0 (m+1) 0
      (fun j hj1 hj2 => hpre j (by omega))]
    rw [show (0 : Nat) + i = i by omega, show (0 : Nat) + i * POLL_INTERVAL_SECONDS =
      i * POLL_INTERVAL_SECONDS by omega]
    exact pollLoop_fail resp fetch i m (i * POLL_INTERVAL_SECONDS) url hterm
  · intro σ resp fetch hall
    unfold _poll_vrp_status
    rw [show MAX_POLL_ATTEMPTS = 0 + MAX_POLL_ATTEMPTS by omega, pollLoop_skip resp fetch
      MAX_POLL_ATTEMPTS 0 0 0 (fun j hj1 hj2 => hall j (by omega))]
    rw [pollLoop]
    rw [show (0 : Nat) + MAX_POLL_ATTEMPTS * POLL_INTERVAL_SECONDS =
      MAX_POLL_ATTEMPTS * POLL_INTERVAL_SECONDS by omega]
    norm_num

/-- C9 witness: three Run polls followed by Done return the fetched solution
after three sleeps. -/
theorem C9_witness :
    _poll_vrp_status c9resp c9fetch = (c9fetch "u", 3 * POLL_INTERVAL_SECONDS) :=
  C9_poll_bounded_terminating.2.2.2.1 Nat c9resp c9fetch 3 "Done" "u"
    (by decide) (by decide) (Or.inl rfl) (by decide)

end YoRote
